import Mathlib

/-!
# dws-ticket-service: ticket lifecycle, purchase handler and confirmation worker

A shallow embedding of

* `internal/types/types.go` (request, response and message records, binding tags),
* `internal/controllers/tickets/controller.go` (`PurchaseTicket`, `CancelTicket`, ...),
* `cmd/consumer/main.go` (`consumeTicketMessages`, `processTicketMessage`),
* `internal/pkg/rabbitmq/rabbitmq.go` (`PublishTicketPurchased`, `HealthCheck`, `Close`),
* `internal/middlewares/auth.go` (`KeycloakAuthMiddleware`, `loadKeycloakPublicKeys`,
  `parseRSAPublicKey`),
* `internal/controllers/health/controller.go` and `internal/router/router.go`
  (`SetupRouter`, with request paths given as their list of segments).

Stateful code is written as explicit state passing over a `World` (ticket store,
broker service, broker queue, and the ordered list of calls issued to the
collaborators).  Everything the outside world decides (whether a store or broker
call fails, the clock, the id the store assigns) is read from an `Env` argument.

`float64` amounts are represented by the rational value of the JSON number (so a
negative zero is the same amount as zero); the code only compares them with zero and
copies them.  `time.Sleep` is not modelled.
-/

namespace TicketService

/-! ## Records of `internal/types/types.go` and the store row -/

/-- The row type `db.TicketModel` as the controllers read it (`mapTicketToResponse`). -/
structure TicketModel where
  ID : String
  UserID : String
  EventID : String
  Quantity : Int
  TotalPrice : Rat
  Status : String
  CreatedAt : Nat
  UpdatedAt : Nat
  deriving DecidableEq, Repr

/-- The body of a purchase call: `types.PurchaseRequest`. -/
structure PurchaseRequest where
  EventID : String
  Quantity : Int
  TotalPrice : Rat
  deriving DecidableEq, Repr

/-- The API view of a ticket: `types.TicketResponse`. -/
structure TicketResponse where
  ID : String
  UserID : String
  EventID : String
  Quantity : Int
  TotalPrice : Rat
  Status : String
  CreatedAt : Nat
  UpdatedAt : Nat
  deriving DecidableEq, Repr

/-- The broker payload: `types.TicketMessage`. -/
structure TicketMessage where
  TicketID : String
  UserID : String
  EventID : String
  Quantity : Int
  TotalPrice : Rat
  Timestamp : Nat
  deriving DecidableEq, Repr

/-- The error body: `types.ErrorResponse`. -/
structure ErrorResponse where
  Error : String
  Message : String
  deriving DecidableEq, Repr

/-! ## Binding tags (`binding:"..."` on `PurchaseRequest`)

The tag vocabulary is the one of the validator behind gin's `ShouldBindJSON`:
`required` rejects the zero value of the field's type, `min`/`max` bound a number. -/

/-- One item of a `binding:"..."` tag. -/
inductive Tag where
  | required
  | min (n : Int)
  | max (n : Int)
  deriving DecidableEq, Repr

/-- A tag item checked on an `int` field. -/
def Tag.holdsInt : Tag → Int → Bool
  | .required, v => decide (v ≠ 0)
  | .min n, v => decide (n ≤ v)
  | .max n, v => decide (v ≤ n)

/-- A tag item checked on a `float64` field. -/
def Tag.holdsFloat : Tag → Rat → Bool
  | .required, v => decide (v ≠ 0)
  | .min n, v => decide ((n : Rat) ≤ v)
  | .max n, v => decide (v ≤ (n : Rat))

/-- A tag item checked on a `string` field (`min`/`max` bound the length). -/
def Tag.holdsString : Tag → String → Bool
  | .required, v => decide (v ≠ "")
  | .min n, v => decide (n ≤ (v.length : Int))
  | .max n, v => decide ((v.length : Int) ≤ n)

/-- The tag `binding:"required"` of `PurchaseRequest.EventID`. -/
def eventIDTags : List Tag := [.required]

/-- The tag `binding:"required,min=1,max=10"` of `PurchaseRequest.Quantity`. -/
def quantityTags : List Tag := [.required, .min 1, .max 10]

/-- The tag `binding:"required,min=0"` of `PurchaseRequest.TotalPrice`. -/
def totalPriceTags : List Tag := [.required, .min 0]

/-- Struct validation of a decoded `PurchaseRequest`: every tag of every field holds. -/
def validatePurchaseRequest (req : PurchaseRequest) : Bool :=
  eventIDTags.all (fun t => t.holdsString req.EventID) &&
  quantityTags.all (fun t => t.holdsInt req.Quantity) &&
  totalPriceTags.all (fun t => t.holdsFloat req.TotalPrice)

/-- A request body as the JSON decoder sees it: not decodable into the struct, or
decoded (absent fields hold Go's zero value; fields the struct does not declare are
dropped by the decoder). -/
inductive RequestBody where
  | malformed
  | json (req : PurchaseRequest)
  deriving DecidableEq, Repr

/-- The call `c.ShouldBindJSON(&req)`: decode, then validate the binding tags. -/
def ShouldBindJSON : RequestBody → Except String PurchaseRequest
  | .malformed => .error "invalid JSON"
  | .json req => if validatePurchaseRequest req then .ok req else .error "validation failed"

/-! ## HTTP context and responses -/

/-- What a handler writes with `c.JSON(status, body)`. -/
inductive Body where
  | error (e : ErrorResponse)
  | ticket (t : TicketResponse)
  | tickets (ts : List TicketResponse)
  | h (msg : String)
  | health (status : String) (services : List (String × String))
  | text (s : String)
  deriving DecidableEq, Repr

/-- A written response: status code and body. -/
structure Response where
  status : Nat
  body : Body
  deriving DecidableEq, Repr

/-- The part of `gin.Context` the handlers read: the key/value store filled by
middlewares, the `:id` path parameter, the `Authorization` header and the body. -/
structure Context where
  keys : List (String × String)
  id : String
  authorization : String
  body : RequestBody
  deriving DecidableEq, Repr

/-- The call `c.Get(key)`. -/
def Context.Get (c : Context) (key : String) : Option String :=
  (c.keys.find? (fun kv => kv.1 == key)).map Prod.snd

/-- The call `c.Set(key, value)`. -/
def Context.Set (c : Context) (key value : String) : Context :=
  { c with keys := (key, value) :: c.keys.filter (fun kv => kv.1 != key) }

/-! ## The ticket store -/

/-- Why a store call returned an error. -/
inductive DbError where
  | notFound
  | unavailable
  | conflict
  deriving DecidableEq, Repr

/-- Modelled from the spec: the Ticket Store (the generated package `prisma/db` is not
among the sources).  A durable record of tickets with create, find-by-id and
update-status; ids are unique. -/
abbrev Store := List TicketModel

/-- Modelled from the spec: `findByID(id) -> Ticket|NotFound` of the Ticket Store. -/
def Store.findUnique (s : Store) (id : String) : Option TicketModel :=
  s.find? (fun t => t.ID == id)

/-- Modelled from the spec: `updateStatus(id, newStatus)` of the Ticket Store; the
selected row gets the new status and `updatedAt` is set. -/
def Store.updateStatus (s : Store) (id status : String) (now : Nat) : Store :=
  s.map (fun t => if t.ID = id then { t with Status := status, UpdatedAt := now } else t)

/-- What the outside world decides during one handler run or one delivery. -/
structure Env where
  now : Nat
  newID : String
  findOk : Bool
  updateOk : Bool
  createOk : Bool
  brokerOk : Bool
  deriving DecidableEq, Repr

/-! ## The broker service (`internal/pkg/rabbitmq/rabbitmq.go`) -/

/-- The fields of `RabbitMQService` the methods read: whether `conn` is non-nil and
open, whether `channel` is non-nil, and the `isHealthy` flag. -/
structure RabbitMQService where
  connOpen : Bool
  channel : Bool
  isHealthy : Bool
  deriving DecidableEq, Repr

/-- A call issued to a collaborator, in the order the code issues it. -/
inductive Call where
  | create (userID eventID : String) (quantity : Int) (totalPrice : Rat) (status : String)
  | findUnique (id : String)
  | update (id status : String)
  | publish (msg : TicketMessage)
  | email (msg : TicketMessage)
  | fetchCerts
  | findMany (userID : Option String)
  deriving DecidableEq, Repr

/-- An RSA public key (`rsa.PublicKey`): modulus `N` and exponent `E`. -/
structure PublicKey where
  N : Nat
  E : Int
  deriving DecidableEq, Repr

/-- The state the handlers and the worker act on: the ticket store, the broker
service and its queue, the package variable `publicKeys` of the auth middleware (a Go
map, kept as an association list with one entry per key id), and the calls issued. -/
structure World where
  store : Store
  rmq : RabbitMQService
  queue : List TicketMessage
  publicKeys : List (String × PublicKey)
  calls : List Call
  deriving DecidableEq, Repr

/-- Errors a Go function of the service returns. -/
inductive Err where
  | unmarshal
  | db (e : DbError)
  | channelNil
  | publishFailed
  | unhealthy
  deriving DecidableEq, Repr

/-- The call `Ticket.FindUnique(ID.Equals(id)).Exec(ctx)`. -/
def dbFindUnique (w : World) (env : Env) (id : String) : Except DbError TicketModel × World :=
  let w1 := { w with calls := w.calls ++ [Call.findUnique id] }
  if env.findOk then
    match w.store.findUnique id with
    | some t => (.ok t, w1)
    | none => (.error .notFound, w1)
  else (.error .unavailable, w1)

/-- The call `Ticket.FindUnique(ID.Equals(id)).Update(Status.Set(status)).Exec(ctx)`. -/
def dbUpdateStatus (w : World) (env : Env) (id status : String) :
    Except DbError TicketModel × World :=
  let w1 := { w with calls := w.calls ++ [Call.update id status] }
  if env.updateOk then
    match w.store.findUnique id with
    | some t =>
      (.ok { t with Status := status, UpdatedAt := env.now },
        { w1 with store := w.store.updateStatus id status env.now })
    | none => (.error .notFound, w1)
  else (.error .unavailable, w1)

/-- Modelled from the spec: the row `create(fields) -> Ticket` of the Ticket Store
makes from the fields the caller sets; the store assigns the id and both timestamps. -/
def newRow (env : Env) (userID eventID : String) (quantity : Int) (totalPrice : Rat)
    (status : String) : TicketModel :=
  { ID := env.newID, UserID := userID, EventID := eventID, Quantity := quantity,
    TotalPrice := totalPrice, Status := status, CreatedAt := env.now, UpdatedAt := env.now }

/-- The call `Ticket.CreateOne(UserID.Set ..., ..., Status.Set(status)).Exec(ctx)`. -/
def dbCreateOne (w : World) (env : Env) (userID eventID : String) (quantity : Int)
    (totalPrice : Rat) (status : String) : Except DbError TicketModel × World :=
  let w1 := { w with calls := w.calls ++ [Call.create userID eventID quantity totalPrice status] }
  if env.createOk then
    match w.store.findUnique env.newID with
    | some _ => (.error .conflict, w1)
    | none =>
      let t := newRow env userID eventID quantity totalPrice status
      (.ok t, { w1 with store := w.store ++ [t] })
  else (.error .unavailable, w1)

/-- The body of `RabbitMQService.PublishTicketPurchased` on the service state: nil
channel check, then `channel.Publish`, whose failure clears `isHealthy`. -/
def RabbitMQService.PublishTicketPurchased (r : RabbitMQService) (brokerOk : Bool) :
    Except Err Unit × RabbitMQService :=
  if r.channel = false then (.error .channelNil, r)
  else if brokerOk = false then (.error .publishFailed, { r with isHealthy := false })
  else (.ok (), r)

/-- The method `RabbitMQService.HealthCheck`. -/
def RabbitMQService.HealthCheck (r : RabbitMQService) : Except Err Unit :=
  if !r.isHealthy || !r.connOpen then .error .unhealthy else .ok ()

/-- The call `tc.rabbitmqService.PublishTicketPurchased(msg)` from a handler: the call
is recorded, and an accepted message is appended to the broker queue. -/
def publishTicketPurchased (w : World) (env : Env) (msg : TicketMessage) :
    Except Err Unit × World :=
  let w1 := { w with calls := w.calls ++ [Call.publish msg] }
  match w.rmq.PublishTicketPurchased env.brokerOk with
  | (.ok _, r) => (.ok (), { w1 with rmq := r, queue := w.queue ++ [msg] })
  | (.error e, r) => (.error e, { w1 with rmq := r })

/-! ## `internal/controllers/tickets/controller.go` -/

/-- The function `mapTicketToResponse`. -/
def mapTicketToResponse (ticket : TicketModel) : TicketResponse :=
  { ID := ticket.ID, UserID := ticket.UserID, EventID := ticket.EventID,
    Quantity := ticket.Quantity, TotalPrice := ticket.TotalPrice, Status := ticket.Status,
    CreatedAt := ticket.CreatedAt, UpdatedAt := ticket.UpdatedAt }

/-- The handler `TicketsController.PurchaseTicket`. -/
def PurchaseTicket (w : World) (env : Env) (c : Context) : Response × World :=
  match c.Get "user_id" with
  | none => (⟨401, .error ⟨"unauthorized", "User ID not found in context"⟩⟩, w)
  | some userID =>
    match ShouldBindJSON c.body with
    | .error e => (⟨400, .error ⟨"invalid_request", e⟩⟩, w)
    | .ok req =>
      match dbCreateOne w env userID req.EventID req.Quantity req.TotalPrice "pending" with
      | (.error _, w1) => (⟨500, .error ⟨"database_error", "Failed to create ticket"⟩⟩, w1)
      | (.ok ticket, w1) =>
        let msg : TicketMessage :=
          { TicketID := ticket.ID, UserID := ticket.UserID, EventID := ticket.EventID,
            Quantity := ticket.Quantity, TotalPrice := ticket.TotalPrice, Timestamp := env.now }
        let w2 := (publishTicketPurchased w1 env msg).2
        (⟨201, .ticket (mapTicketToResponse ticket)⟩, w2)

/-- The handler `TicketsController.CancelTicket`. -/
def CancelTicket (w : World) (env : Env) (c : Context) : Response × World :=
  let ticketID := c.id
  match c.Get "user_id" with
  | none => (⟨401, .error ⟨"unauthorized", "User ID not found in context"⟩⟩, w)
  | some userID =>
    match dbFindUnique w env ticketID with
    | (.error _, w1) => (⟨404, .error ⟨"not_found", "Ticket not found"⟩⟩, w1)
    | (.ok ticket, w1) =>
      if ticket.UserID ≠ userID then
        (⟨403, .error ⟨"forbidden", "You don't have permission to cancel this ticket"⟩⟩, w1)
      else if ticket.Status = "cancelled" then
        (⟨400, .error ⟨"already_cancelled", "Ticket is already cancelled"⟩⟩, w1)
      else
        match dbUpdateStatus w1 env ticketID "cancelled" with
        | (.error _, w2) => (⟨500, .error ⟨"database_error", "Failed to cancel ticket"⟩⟩, w2)
        | (.ok updatedTicket, w2) => (⟨200, .ticket (mapTicketToResponse updatedTicket)⟩, w2)

/-- The handler `TicketsController.GetTicketByID`. -/
def GetTicketByID (w : World) (env : Env) (c : Context) : Response × World :=
  let ticketID := c.id
  match c.Get "user_id" with
  | none => (⟨401, .error ⟨"unauthorized", "User ID not found in context"⟩⟩, w)
  | some userID =>
    match dbFindUnique w env ticketID with
    | (.error _, w1) => (⟨404, .error ⟨"not_found", "Ticket not found"⟩⟩, w1)
    | (.ok ticket, w1) =>
      if ticket.UserID ≠ userID then
        (⟨403, .error ⟨"forbidden", "You don't have permission to view this ticket"⟩⟩, w1)
      else (⟨200, .ticket (mapTicketToResponse ticket)⟩, w1)

/-! ## `cmd/consumer/main.go` -/

/-- The bytes of a delivery as `json.Unmarshal` sees them: not decodable into a
`TicketMessage`, or decoded. -/
inductive Payload where
  | malformed
  | json (m : TicketMessage)
  deriving DecidableEq, Repr

/-- An `amqp.Delivery`: the broker's tag and the body. -/
structure Delivery where
  DeliveryTag : Nat
  Body : Payload
  deriving DecidableEq, Repr

/-- The call `json.Unmarshal(msg.Body, &ticketMsg)`. -/
def jsonUnmarshal : Payload → Except Err TicketMessage
  | .malformed => .error .unmarshal
  | .json m => .ok m

/-- The function `sendConfirmationEmail` (a mock: it only logs). -/
def sendConfirmationEmail (w : World) (ticketMsg : TicketMessage) : World :=
  { w with calls := w.calls ++ [Call.email ticketMsg] }

/-- The function `processTicketMessage`. -/
def processTicketMessage (w : World) (env : Env) (msg : Delivery) : Except Err Unit × World :=
  match jsonUnmarshal msg.Body with
  | .error e => (.error e, w)
  | .ok ticketMsg =>
    match dbFindUnique w env ticketMsg.TicketID with
    | (.error e, w1) => (.error (.db e), w1)
    | (.ok ticket, w1) =>
      if ticket.Status = "confirmed" then (.ok (), w1)
      else
        match dbUpdateStatus w1 env ticketMsg.TicketID "confirmed" with
        | (.error e, w2) => (.error (.db e), w2)
        | (.ok _, w2) => (.ok (), sendConfirmationEmail w2 ticketMsg)

/-- What the consumer answers to the broker for one delivery. -/
inductive AckAction where
  | Ack (tag : Nat) (multiple : Bool)
  | Nack (tag : Nat) (multiple requeue : Bool)
  deriving DecidableEq, Repr

/-- The body of the `for msg := range msgs` loop of `consumeTicketMessages`: the
acknowledgement calls issued for the delivery, and the world after it. -/
def consumeOne (w : World) (env : Env) (msg : Delivery) : List AckAction × World :=
  match processTicketMessage w env msg with
  | (.error _, w1) => ([AckAction.Nack msg.DeliveryTag false true], w1)
  | (.ok _, w1) => ([AckAction.Ack msg.DeliveryTag false], w1)

/-- The loop of `consumeTicketMessages` over the deliveries drained from the channel,
each with what the outside world decides while it is processed. -/
def consumeTicketMessages (w : World) : List (Env × Delivery) → List AckAction × World
  | [] => ([], w)
  | (env, msg) :: rest =>
    let r := consumeOne w env msg
    let r2 := consumeTicketMessages r.2 rest
    (r.1 ++ r2.1, r2.2)

/-! ## `internal/middlewares/auth.go` -/

/-- One entry of `KeycloakCerts.Keys`. -/
structure Jwk where
  Kid : String
  Kty : String
  Alg : String
  Use : String
  N : String
  E : String
  X5c : List String
  deriving DecidableEq, Repr

/-- The value of a character in the URL-safe base64 alphabet. -/
def b64urlValue (c : Char) : Option Nat :=
  if 'A' ≤ c ∧ c ≤ 'Z' then some (c.toNat - 65)
  else if 'a' ≤ c ∧ c ≤ 'z' then some (c.toNat - 97 + 26)
  else if '0' ≤ c ∧ c ≤ '9' then some (c.toNat - 48 + 52)
  else if c = '-' then some 62
  else if c = '_' then some 63
  else none

/-- Groups of four 6-bit values to bytes; a final group of two or three values gives
one or two bytes (the left-over low bits are dropped), a final single value is
corrupt input. -/
def decodeQuanta : List Nat → Option (List Nat)
  | a :: b :: c :: d :: rest =>
    (decodeQuanta rest).map
      (fun bs => (a * 4 + b / 16) :: ((b % 16) * 16 + c / 4) :: ((c % 4) * 64 + d) :: bs)
  | [a, b, c] => some [a * 4 + b / 16, (b % 16) * 16 + c / 4]
  | [a, b] => some [a * 4 + b / 16]
  | [_] => none
  | [] => some []

/-- The call `base64.RawURLEncoding.DecodeString(s)`: carriage returns and line feeds
are skipped, every other character must be in the alphabet, there is no padding
character. -/
def DecodeString (s : String) : Option (List Nat) :=
  ((s.toList.filter (fun c => c ≠ '\n' ∧ c ≠ '\r')).mapM b64urlValue).bind decodeQuanta

/-- The call `new(big.Int).SetBytes(b)`: the unsigned big-endian value of the bytes. -/
def SetBytes (b : List Nat) : Nat :=
  b.foldl (fun acc x => acc * 256 + x) 0

/-- The conversion `int(e.Int64())` of a non-negative `big.Int`: the low 64 bits read
as a signed 64-bit integer (`int` being 64 bits wide). -/
def Int64 (e : Nat) : Int :=
  if e % 2 ^ 64 < 2 ^ 63 then ((e % 2 ^ 64 : Nat) : Int) else ((e % 2 ^ 64 : Nat) : Int) - 2 ^ 64

/-- Errors of the auth middleware and its helpers. -/
inductive AuthErr where
  | decodeN
  | decodeE
  | fetchCerts
  | decodeCerts
  | unexpectedSigningMethod
  | kidNotFound
  | reloadFailed
  | publicKeyNotFound
  deriving DecidableEq, Repr

/-- The function `parseRSAPublicKey`. -/
def parseRSAPublicKey (nStr eStr : String) : Except AuthErr PublicKey :=
  match DecodeString nStr with
  | none => .error .decodeN
  | some nBytes =>
    match DecodeString eStr with
    | none => .error .decodeE
    | some eBytes =>
      let n := SetBytes nBytes
      let e := SetBytes eBytes
      .ok { N := n, E := Int64 e }

/-- The assignment `publicKeys[kid] = publicKey` on the map. -/
def setKey (m : List (String × PublicKey)) (kid : String) (publicKey : PublicKey) :
    List (String × PublicKey) :=
  (kid, publicKey) :: m.filter (fun kv => kv.1 != kid)

/-- The read `publicKeys[kid]` with its `exists` flag. -/
def getKey (m : List (String × PublicKey)) (kid : String) : Option PublicKey :=
  (m.find? (fun kv => kv.1 == kid)).map Prod.snd

/-- A token as `jwt.Parse` has decoded it when it calls the key function: whether
`token.Method` is a `*jwt.SigningMethodRSA`, the header `kid` when it is a string, the
claim `sub` when it is a string, whether the registered claims validate, and under
which keys the signature verifies. -/
structure Token where
  methodRSA : Bool
  kid : Option String
  sub : Option String
  claimsValid : Bool
  verifies : PublicKey → Bool

/-- What the outside world decides during one run of the auth middleware: how the JWT
library decodes a token string (`none`: not a decodable token), and what the
provider's certs endpoint answers (fetch failure, undecodable document, or the
decoded `keys` array). -/
structure AuthEnv where
  decode : String → Option Token
  certs : Except AuthErr (List Jwk)

/-- The loop body of `loadKeycloakPublicKeys` for one entry of `certs.Keys`. -/
def loadKey (m : List (String × PublicKey)) (key : Jwk) : List (String × PublicKey) :=
  if key.Kty = "RSA" then
    match parseRSAPublicKey key.N key.E with
    | .error _ => m
    | .ok publicKey => setKey m key.Kid publicKey
  else m

/-- The function `loadKeycloakPublicKeys`. -/
def loadKeycloakPublicKeys (w : World) (aenv : AuthEnv) : Except AuthErr Unit × World :=
  let w1 := { w with calls := w.calls ++ [Call.fetchCerts] }
  match aenv.certs with
  | .error e => (.error e, w1)
  | .ok keys => (.ok (), { w1 with publicKeys := keys.foldl loadKey w.publicKeys })

/-- The key function handed to `jwt.Parse` by `KeycloakAuthMiddleware`. -/
def keyFunc (w : World) (aenv : AuthEnv) (token : Token) : Except AuthErr PublicKey × World :=
  if token.methodRSA = false then (.error .unexpectedSigningMethod, w)
  else
    match token.kid with
    | none => (.error .kidNotFound, w)
    | some kid =>
      match getKey w.publicKeys kid with
      | some publicKey => (.ok publicKey, w)
      | none =>
        match loadKeycloakPublicKeys w aenv with
        | (.error _, w1) => (.error .reloadFailed, w1)
        | (.ok _, w1) =>
          match getKey w1.publicKeys kid with
          | some publicKey => (.ok publicKey, w1)
          | none => (.error .publicKeyNotFound, w1)

/-- The call `jwt.Parse(tokenString, keyFunc)`: decode, ask the key function, validate
the claims and the signature; the result is the token when `err == nil` and
`token.Valid`. -/
def jwtParse (w : World) (aenv : AuthEnv) (tokenString : String) : Option Token × World :=
  match aenv.decode tokenString with
  | none => (none, w)
  | some token =>
    match keyFunc w aenv token with
    | (.error _, w1) => (none, w1)
    | (.ok key, w1) => if token.claimsValid && token.verifies key then (some token, w1) else (none, w1)

/-- The call `strings.TrimPrefix(s, p)`. -/
def TrimPrefix (s p : String) : String :=
  if p.toList.isPrefixOf s.toList then String.mk (s.toList.drop p.length) else s

/-- What a middleware run ends with: `c.Abort()` after a written response, or
`c.Next()` on the context it has prepared. -/
inductive MwResult where
  | abort (r : Response)
  | next (c : Context)
  deriving DecidableEq, Repr

/-- The handler function returned by `KeycloakAuthMiddleware`. -/
def KeycloakAuthMiddleware (w : World) (aenv : AuthEnv) (c : Context) : MwResult × World :=
  let authHeader := c.authorization
  if authHeader = "" then (.abort ⟨401, .h "Authorization header required"⟩, w)
  else
    let tokenString := TrimPrefix authHeader "Bearer "
    if tokenString = authHeader then (.abort ⟨401, .h "Invalid authorization format"⟩, w)
    else
      match jwtParse w aenv tokenString with
      | (none, w1) => (.abort ⟨401, .h "Invalid token"⟩, w1)
      | (some token, w1) =>
        match token.sub with
        | none => (.abort ⟨401, .h "User ID not found in token"⟩, w1)
        | some userID => (.next (c.Set "user_id" userID), w1)

/-- A route of `ticketsGroup`: the auth middleware, then the handler unless the
middleware aborted. -/
def protectedRoute (handler : World → Env → Context → Response × World)
    (w : World) (aenv : AuthEnv) (env : Env) (c : Context) : Response × World :=
  match KeycloakAuthMiddleware w aenv c with
  | (.abort r, w1) => (r, w1)
  | (.next c1, w1) => handler w1 env c1

/-! ## List handlers of `controller.go` and the health controller -/

/-- Modelled from the spec: the list operations of the Ticket Store answer in
descending order of `createdAt`. -/
def Store.orderByCreatedAtDesc (s : Store) : List TicketModel :=
  List.insertionSort (fun a b => b.CreatedAt ≤ a.CreatedAt) s

/-- The call `Ticket.FindMany(...).OrderBy(CreatedAt.Order(DESC)).Exec(ctx)`, with the
`UserID.Equals` filter when there is one. -/
def dbFindMany (w : World) (env : Env) (userID : Option String) :
    Except DbError (List TicketModel) × World :=
  let w1 := { w with calls := w.calls ++ [Call.findMany userID] }
  if env.findOk then
    match userID with
    | some u => (.ok (Store.orderByCreatedAtDesc (w.store.filter (fun t => t.UserID == u))), w1)
    | none => (.ok (Store.orderByCreatedAtDesc w.store), w1)
  else (.error .unavailable, w1)

/-- The handler `TicketsController.GetMyTickets`. -/
def GetMyTickets (w : World) (env : Env) (c : Context) : Response × World :=
  match c.Get "user_id" with
  | none => (⟨401, .error ⟨"unauthorized", "User ID not found in context"⟩⟩, w)
  | some userID =>
    match dbFindMany w env (some userID) with
    | (.error _, w1) => (⟨500, .error ⟨"database_error", "Failed to fetch tickets"⟩⟩, w1)
    | (.ok tickets, w1) => (⟨200, .tickets (tickets.map mapTicketToResponse)⟩, w1)

/-- The handler `TicketsController.GetAllTickets`. -/
def GetAllTickets (w : World) (env : Env) (_c : Context) : Response × World :=
  match dbFindMany w env none with
  | (.error _, w1) => (⟨500, .error ⟨"database_error", "Failed to fetch tickets"⟩⟩, w1)
  | (.ok tickets, w1) => (⟨200, .tickets (tickets.map mapTicketToResponse)⟩, w1)

/-- The handler `HealthController.HealthCheck`. -/
def HealthCheck (w : World) : Response × World :=
  (⟨200, .health "healthy" []⟩, w)

/-- The handler `HealthController.DatabaseHealth`, with `DatabaseService.HealthCheck`
(a `FindMany` on a non-nil client) inlined. -/
def DatabaseHealth (w : World) (env : Env) : Response × World :=
  match dbFindMany w env none with
  | (.error _, w1) =>
    (⟨503, .health "unhealthy" [("database", "database health check failed")]⟩, w1)
  | (.ok _, w1) => (⟨200, .health "healthy" [("database", "connected")]⟩, w1)

/-- The handler `HealthController.RabbitMQHealth`. -/
def RabbitMQHealth (w : World) : Response × World :=
  match w.rmq.HealthCheck with
  | .error _ =>
    (⟨503, .health "unhealthy" [("rabbitmq", "RabbitMQ connection is not healthy")]⟩, w)
  | .ok _ => (⟨200, .health "healthy" [("rabbitmq", "connected")]⟩, w)

/-! ## More of the broker service -/

/-- The method `RabbitMQService.Close`: channel and connection are closed; the fields
stay non-nil and `isHealthy` is not written. -/
def RabbitMQService.Close (r : RabbitMQService) : RabbitMQService :=
  { r with connOpen := false }

/-- A call on the broker service: a publish (with the broker's answer), a health
check, or a close. -/
inductive RmqOp where
  | publish (brokerOk : Bool)
  | healthCheck
  | close
  deriving DecidableEq, Repr

/-- The service after one call. -/
def RabbitMQService.step (r : RabbitMQService) : RmqOp → RabbitMQService
  | .publish brokerOk => (r.PublishTicketPurchased brokerOk).2
  | .healthCheck => r
  | .close => r.Close

/-- The service after a sequence of calls. -/
def RabbitMQService.run (r : RabbitMQService) (ops : List RmqOp) : RabbitMQService :=
  ops.foldl RabbitMQService.step r

/-! ## `internal/router/router.go` -/

/-- The handlers of the two controllers. -/
inductive Handler where
  | HealthCheck
  | DatabaseHealth
  | RabbitMQHealth
  | PurchaseTicket
  | GetMyTickets
  | GetAllTickets
  | GetTicketByID
  | CancelTicket
  deriving DecidableEq, Repr

/-- A segment of a route pattern: a literal or a `:name` parameter. -/
inductive Seg where
  | static (s : String)
  | param (name : String)
  deriving DecidableEq, Repr

/-- A registered route: method, full pattern, whether the group carries the auth
middleware, and the handler. -/
structure Route where
  method : String
  path : List Seg
  auth : Bool
  handler : Handler
  deriving DecidableEq, Repr

/-- A `gin.RouterGroup`: its base path and whether the auth middleware is attached. -/
structure RouterGroup where
  basePath : List Seg
  auth : Bool
  deriving DecidableEq, Repr

/-- The call `group.Group(relativePath)`. -/
def RouterGroup.Group (g : RouterGroup) (rel : List Seg) : RouterGroup :=
  { g with basePath := g.basePath ++ rel }

/-- The call `group.Use(middlewares.KeycloakAuthMiddleware(cfg))`. -/
def RouterGroup.Use (g : RouterGroup) : RouterGroup :=
  { g with auth := true }

/-- The calls `group.GET`, `group.POST`, `group.DELETE`. -/
def RouterGroup.handle (g : RouterGroup) (method : String) (rel : List Seg) (h : Handler) :
    Route :=
  { method := method, path := g.basePath ++ rel, auth := g.auth, handler := h }

/-- The route table built by `SetupRouter`. -/
def SetupRouter : List Route :=
  let v1 := (RouterGroup.mk [] false).Group [.static "api", .static "v1"]
  let healthGroup := v1.Group [.static "health"]
  let ticketsGroup := (v1.Group [.static "tickets"]).Use
  [ healthGroup.handle "GET" [] .HealthCheck,
    healthGroup.handle "GET" [.static "db"] .DatabaseHealth,
    healthGroup.handle "GET" [.static "rabbitmq"] .RabbitMQHealth,
    ticketsGroup.handle "POST" [.static "purchase"] .PurchaseTicket,
    ticketsGroup.handle "GET" [.static "my-tickets"] .GetMyTickets,
    ticketsGroup.handle "GET" [.param "id"] .GetTicketByID,
    ticketsGroup.handle "DELETE" [.param "id"] .CancelTicket ]

/-- Whether a pattern segment accepts a path segment. -/
def Seg.accepts : Seg → String → Bool
  | .static s, x => s == x
  | .param _, x => x != ""

/-- Whether a pattern accepts a path, segment by segment. -/
def acceptsPath : List Seg → List String → Bool
  | [], [] => true
  | p :: ps, x :: xs => p.accepts x && acceptsPath ps xs
  | _, _ => false

/-- The value of the parameter `name` for a path accepted by a pattern. -/
def pathParam (name : String) : List Seg → List String → String
  | .param n :: ps, x :: xs => if n = name then x else pathParam name ps xs
  | _ :: ps, _ :: xs => pathParam name ps xs
  | _, _ => ""

/-- The router's lookup of a request (method and path segments): a route all of
whose segments are literal wins over one with a parameter. -/
def dispatch (routes : List Route) (method : String) (path : List String) : Option Route :=
  match routes.find? (fun r => r.method == method && r.path == path.map Seg.static) with
  | some r => some r
  | none => routes.find? (fun r => r.method == method && acceptsPath r.path path)

/-- The function a handler name stands for. -/
def runHandler : Handler → World → Env → Context → Response × World
  | .HealthCheck, w, _, _ => HealthCheck w
  | .DatabaseHealth, w, env, _ => DatabaseHealth w env
  | .RabbitMQHealth, w, _, _ => RabbitMQHealth w
  | .PurchaseTicket, w, env, c => PurchaseTicket w env c
  | .GetMyTickets, w, env, c => GetMyTickets w env c
  | .GetAllTickets, w, env, c => GetAllTickets w env c
  | .GetTicketByID, w, env, c => GetTicketByID w env c
  | .CancelTicket, w, env, c => CancelTicket w env c

/-- The engine serving one request: no route gives the framework's 404 and nothing
runs; otherwise the route's middleware and handler run, `c.Param("id")` being the
path segment under `:id`. -/
def ServeHTTP (w : World) (aenv : AuthEnv) (env : Env) (method : String) (path : List String)
    (c : Context) : Response × World :=
  match dispatch SetupRouter method path with
  | none => (⟨404, .text "404 page not found"⟩, w)
  | some r =>
    let c1 := { c with id := pathParam "id" r.path path }
    if r.auth then protectedRoute (runHandler r.handler) w aenv env c1
    else runHandler r.handler w env c1

/-! ## Reading the recorded calls -/

/-- The messages handed to `PublishTicketPurchased`, in order: one per publish attempt. -/
def publishAttempts : List Call → List TicketMessage
  | [] => []
  | Call.publish msg :: rest => msg :: publishAttempts rest
  | _ :: rest => publishAttempts rest

/-! ## Sample inputs -/

/-- A ticket of user `u1`, already confirmed. -/
def sampleConfirmed : TicketModel :=
  { ID := "t1", UserID := "u1", EventID := "evt-1", Quantity := 2, TotalPrice := 4998 / 100,
    Status := "confirmed", CreatedAt := 1, UpdatedAt := 2 }

/-- A ticket of user `u1`, cancelled before its confirmation. -/
def sampleCancelled : TicketModel :=
  { sampleConfirmed with Status := "cancelled" }

/-- A ticket of user `u1`, still pending. -/
def samplePending : TicketModel :=
  { sampleConfirmed with Status := "pending", UpdatedAt := 1 }

/-- A world holding exactly the given tickets, with a connected broker. -/
def worldOf (tickets : List TicketModel) : World :=
  { store := tickets, rmq := { connOpen := true, channel := true, isHealthy := true },
    queue := [], publicKeys := [], calls := [] }

/-- An environment in which no collaborator fails. -/
def envOk : Env :=
  { now := 5, newID := "t2", findOk := true, updateOk := true, createOk := true,
    brokerOk := true }

/-- The context of a call on ticket `t1` by the authenticated user `u1`. -/
def ctxU1 (body : RequestBody) : Context :=
  { keys := [("user_id", "u1")], id := "t1", authorization := "Bearer x", body := body }

/-- The purchase event of ticket `t1`. -/
def sampleMessage : TicketMessage :=
  { TicketID := "t1", UserID := "u1", EventID := "evt-1", Quantity := 2,
    TotalPrice := 4998 / 100, Timestamp := 1 }

/-- A delivery of the purchase event of ticket `t1`. -/
def sampleDelivery : Delivery :=
  { DeliveryTag := 7, Body := .json sampleMessage }

/-- A cached provider key. -/
def sampleKey : PublicKey := { N := 3233, E := 65537 }

/-- A token for subject `u1`, signed with the key cached under `k1`. -/
def sampleToken : Token :=
  { methodRSA := true, kid := some "k1", sub := some "u1", claimsValid := true,
    verifies := fun k => decide (k = sampleKey) }

/-- The JWT library decodes the string `tok` to the sample token; the provider's
certs endpoint is down. -/
def sampleAuthEnv : AuthEnv :=
  { decode := fun s => if s = "tok" then some sampleToken else none,
    certs := .error .fetchCerts }

/-- An empty store, a connected broker, and the sample key cached under `k1`. -/
def sampleWorld : World :=
  { worldOf [] with publicKeys := [("k1", sampleKey)] }

/-- A purchase call carrying the sample token. -/
def ctxBearer (body : RequestBody) : Context :=
  { keys := [], id := "", authorization := "Bearer tok", body := body }

/-- A purchase of two tickets for 49.98. -/
def sampleRequest : PurchaseRequest :=
  { EventID := "evt-1", Quantity := 2, TotalPrice := 4998 / 100 }

/-- A purchase of one free ticket: total price exactly 0. -/
def freeRequest : PurchaseRequest :=
  { EventID := "evt-1", Quantity := 1, TotalPrice := 0 }

/-- A purchase of eleven tickets. -/
def elevenRequest : PurchaseRequest :=
  { EventID := "evt-1", Quantity := 11, TotalPrice := 10 }

/-- A key-set document with one RSA entry, under `k2`. -/
def sampleCerts : List Jwk :=
  [{ Kid := "k2", Kty := "RSA", Alg := "RS256", Use := "sig", N := "AQAB", E := "AQAB",
     X5c := [] }]

/-- A token for subject `u1` whose header names the key id `k9`. -/
def unknownKidToken : Token :=
  { sampleToken with kid := some "k9" }

/-- The JWT library decodes the string `tok9` to the token with key id `k9`; the
provider's certs endpoint answers the sample document. -/
def reloadAuthEnv : AuthEnv :=
  { decode := fun s => if s = "tok9" then some unknownKidToken else none,
    certs := .ok sampleCerts }

/-! ## Store lemmas -/

theorem findUnique_updateStatus (s : Store) (id status : String) (now : Nat) (t : TicketModel)
    (h : s.findUnique id = some t) :
    (s.updateStatus id status now).findUnique id
      = some { t with Status := status, UpdatedAt := now } := by
  induction s with
  | nil => simp [Store.findUnique] at h
  | cons a rest ih =>
    simp only [Store.findUnique, Store.updateStatus, List.map_cons, List.find?_cons] at h ih ⊢
    by_cases ha : a.ID = id
    · simp only [ha, ↓reduceIte, beq_self_eq_true] at h ⊢
      cases h
      rw [ha]
    · have hb : (a.ID == id) = false := by simpa using ha
      simp only [ha, ↓reduceIte, hb] at h ⊢
      exact ih h

theorem findUnique_ID (s : Store) (id : String) (t : TicketModel)
    (h : s.findUnique id = some t) : t.ID = id := by
  unfold Store.findUnique at h
  have := List.find?_some h
  simpa using this

/-! ## The confirmation path on a ticket that is found -/

theorem processTicketMessage_found (w : World) (env : Env) (tag : Nat) (m : TicketMessage)
    (t : TicketModel) (hfind : env.findOk = true)
    (hex : w.store.findUnique m.TicketID = some t) :
    processTicketMessage w env ⟨tag, .json m⟩ =
      if t.Status = "confirmed" then
        (.ok (), { w with calls := w.calls ++ [Call.findUnique m.TicketID] })
      else if env.updateOk = true then
        (.ok (), { w with
          store := w.store.updateStatus m.TicketID "confirmed" env.now,
          calls := w.calls ++ [Call.findUnique m.TicketID, Call.update m.TicketID "confirmed",
            Call.email m] })
      else
        (.error (.db .unavailable), { w with
          calls := w.calls ++ [Call.findUnique m.TicketID, Call.update m.TicketID "confirmed"] }) := by
  by_cases hs : t.Status = "confirmed"
  · simp [processTicketMessage, jsonUnmarshal, dbFindUnique, hfind, hex, hs]
  · by_cases hup : env.updateOk = true
    · simp [processTicketMessage, jsonUnmarshal, dbFindUnique, dbUpdateStatus,
        sendConfirmationEmail, hfind, hex, hs, hup]
    · simp [processTicketMessage, jsonUnmarshal, dbFindUnique, dbUpdateStatus, hfind, hex, hs,
        hup]

theorem processTicketMessage_lookup_fails (w : World) (env : Env) (tag : Nat)
    (m : TicketMessage) (hfind : env.findOk = false) :
    processTicketMessage w env ⟨tag, .json m⟩ =
      (.error (.db .unavailable), { w with calls := w.calls ++ [Call.findUnique m.TicketID] }) := by
  simp [processTicketMessage, jsonUnmarshal, dbFindUnique, hfind]

theorem consumeOne_confirmed (w : World) (env : Env) (tag : Nat) (m : TicketMessage)
    (t : TicketModel) (hex : w.store.findUnique m.TicketID = some t)
    (hs : t.Status = "confirmed") :
    (consumeOne w env ⟨tag, .json m⟩).2
        = { w with calls := w.calls ++ [Call.findUnique m.TicketID] } ∧
    (env.findOk = true → (consumeOne w env ⟨tag, .json m⟩).1 = [AckAction.Ack tag false]) := by
  cases hf : env.findOk with
  | false =>
    simp [consumeOne, processTicketMessage_lookup_fails w env tag m hf]
  | true =>
    simp [consumeOne, processTicketMessage_found w env tag m t hf hex, hs]

theorem consume_confirmed (tag : Nat) (m : TicketMessage) (t : TicketModel)
    (hs : t.Status = "confirmed") (envs : List Env) :
    ∀ w : World, w.store.findUnique m.TicketID = some t →
      (consumeTicketMessages w (envs.map fun e => (e, (⟨tag, .json m⟩ : Delivery)))).2
          = { w with calls := w.calls ++ List.replicate envs.length (Call.findUnique m.TicketID) } ∧
      ((∀ e ∈ envs, e.findOk = true) →
        (consumeTicketMessages w (envs.map fun e => (e, (⟨tag, .json m⟩ : Delivery)))).1
          = List.replicate envs.length (AckAction.Ack tag false)) := by
  induction envs with
  | nil => intro w _; simp [consumeTicketMessages]
  | cons e rest ih =>
    intro w hex
    obtain ⟨h2, h1⟩ := consumeOne_confirmed w e tag m t hex hs
    obtain ⟨ih2, ih1⟩ :=
      ih { w with calls := w.calls ++ [Call.findUnique m.TicketID] } hex
    refine ⟨?_, ?_⟩
    · simp only [List.map_cons, consumeTicketMessages, h2, ih2, List.length_cons,
        List.replicate_succ, List.append_assoc, List.singleton_append]
    · intro hall
      have he : e.findOk = true := hall e (List.mem_cons_self _ _)
      have hr : ∀ x ∈ rest, x.findOk = true := fun x hx => hall x (List.mem_cons_of_mem _ hx)
      simp only [List.map_cons, consumeTicketMessages, h2, ih1 hr, h1 he, List.length_cons,
        List.replicate_succ, List.singleton_append]

/-! ## The consumer loop -/

theorem consumeTicketMessages_append (ds es : List (Env × Delivery)) :
    ∀ w : World, consumeTicketMessages w (ds ++ es) =
      ((consumeTicketMessages w ds).1 ++
          (consumeTicketMessages (consumeTicketMessages w ds).2 es).1,
        (consumeTicketMessages (consumeTicketMessages w ds).2 es).2) := by
  induction ds with
  | nil => intro w; simp [consumeTicketMessages]
  | cons d rest ih =>
    intro w
    obtain ⟨env, msg⟩ := d
    show consumeTicketMessages w ((env, msg) :: (rest ++ es)) = _
    simp only [consumeTicketMessages, ih, List.append_assoc]

theorem consumeOne_action (w : World) (env : Env) (msg : Delivery) :
    (consumeOne w env msg).1 =
      [if (processTicketMessage w env msg).1.isOk = true then AckAction.Ack msg.DeliveryTag false
        else AckAction.Nack msg.DeliveryTag false true] := by
  unfold consumeOne
  rcases h : processTicketMessage w env msg with ⟨r, w1⟩
  cases r <;> simp [Except.isOk, Except.toBool]

theorem consumeTicketMessages_length (ds : List (Env × Delivery)) :
    ∀ w : World, (consumeTicketMessages w ds).1.length = ds.length := by
  induction ds with
  | nil => intro w; simp [consumeTicketMessages]
  | cons d rest ih =>
    intro w
    obtain ⟨env, msg⟩ := d
    simp [consumeTicketMessages, ih, consumeOne_action]

/-! ## Validation and the purchase handler -/

theorem validatePurchaseRequest_iff (req : PurchaseRequest) :
    validatePurchaseRequest req = true ↔
      req.EventID ≠ "" ∧ 1 ≤ req.Quantity ∧ req.Quantity ≤ 10 ∧ 0 < req.TotalPrice := by
  simp only [validatePurchaseRequest, eventIDTags, quantityTags, totalPriceTags, List.all_cons,
    List.all_nil, Tag.holdsString, Tag.holdsInt, Tag.holdsFloat, Bool.and_true, Bool.and_eq_true,
    decide_eq_true_eq, Int.cast_zero, ne_eq]
  constructor
  · rintro ⟨⟨h1, _, h3, h4⟩, h5, h6⟩
    exact ⟨h1, h3, h4, lt_of_le_of_ne h6 (Ne.symm h5)⟩
  · rintro ⟨h1, h2, h3, h4⟩
    refine ⟨⟨h1, ?_, h2, h3⟩, ne_of_gt h4, le_of_lt h4⟩
    omega

theorem publishAttempts_append (xs ys : List Call) :
    publishAttempts (xs ++ ys) = publishAttempts xs ++ publishAttempts ys := by
  induction xs with
  | nil => rfl
  | cons x rest ih => cases x <;> simp [publishAttempts, ih]

theorem findUnique_append_new (s : Store) (t : TicketModel)
    (h : s.findUnique t.ID = none) : Store.findUnique (s ++ [t]) t.ID = some t := by
  unfold Store.findUnique at *
  rw [List.find?_append, h]
  simp

theorem PurchaseTicket_created (w : World) (env : Env) (c : Context) (uid : String)
    (req : PurchaseRequest) (hu : c.Get "user_id" = some uid)
    (hb : ShouldBindJSON c.body = .ok req) (hc : env.createOk = true)
    (hid : w.store.findUnique env.newID = none) :
    PurchaseTicket w env c =
      (⟨201, .ticket (mapTicketToResponse
          (newRow env uid req.EventID req.Quantity req.TotalPrice "pending"))⟩,
        (publishTicketPurchased
          { w with
            store := w.store ++ [newRow env uid req.EventID req.Quantity req.TotalPrice "pending"],
            calls := w.calls ++
              [Call.create uid req.EventID req.Quantity req.TotalPrice "pending"] }
          env
          { TicketID := env.newID, UserID := uid, EventID := req.EventID,
            Quantity := req.Quantity, TotalPrice := req.TotalPrice, Timestamp := env.now }).2) := by
  simp [PurchaseTicket, hu, hb, dbCreateOne, hc, hid, newRow]

theorem publishTicketPurchased_frame (w : World) (env : Env) (msg : TicketMessage) :
    (publishTicketPurchased w env msg).2.store = w.store ∧
    (publishTicketPurchased w env msg).2.calls = w.calls ++ [Call.publish msg] := by
  unfold publishTicketPurchased
  rcases h : w.rmq.PublishTicketPurchased env.brokerOk with ⟨r, r2⟩
  cases r <;> simp

/-! ## The auth middleware when it lets a call through -/

theorem Get_Set (c : Context) (key value : String) : (c.Set key value).Get key = some value := by
  simp [Context.Get, Context.Set]

theorem keyFunc_ok (w : World) (aenv : AuthEnv) (token : Token) (key : PublicKey) (w1 : World)
    (h : keyFunc w aenv token = (.ok key, w1)) :
    token.methodRSA = true ∧ ∃ kid, token.kid = some kid ∧ getKey w1.publicKeys kid = some key := by
  unfold keyFunc at h
  split at h
  · simp at h
  · rename_i hm
    refine ⟨by simpa using hm, ?_⟩
    split at h
    · simp at h
    · rename_i kid hk
      refine ⟨kid, hk, ?_⟩
      split at h
      · rename_i pk hg
        simp only [Prod.mk.injEq, Except.ok.injEq] at h
        obtain ⟨h1, h2⟩ := h
        subst h1 h2
        exact hg
      · split at h
        · simp at h
        · split at h
          · rename_i pk hg
            simp only [Prod.mk.injEq, Except.ok.injEq] at h
            obtain ⟨h1, h2⟩ := h
            subst h1 h2
            exact hg
          · simp at h

theorem middleware_next (w : World) (aenv : AuthEnv) (c c1 : Context) (w1 : World)
    (h : KeycloakAuthMiddleware w aenv c = (.next c1, w1)) :
    ∃ token sub kid key,
      aenv.decode (TrimPrefix c.authorization "Bearer ") = some token ∧
      token.sub = some sub ∧ token.methodRSA = true ∧ token.kid = some kid ∧
      getKey w1.publicKeys kid = some key ∧ token.claimsValid = true ∧
      token.verifies key = true ∧ c1 = c.Set "user_id" sub := by
  unfold KeycloakAuthMiddleware at h
  simp only at h
  split at h
  · simp at h
  · split at h
    · simp at h
    · split at h
      · simp at h
      · rename_i token w2 hp
        split at h
        · simp at h
        · rename_i sub hsub
          simp only [Prod.mk.injEq, MwResult.next.injEq] at h
          obtain ⟨hc, hw⟩ := h
          subst hw
          unfold jwtParse at hp
          split at hp
          · simp at hp
          · rename_i tok hd
            split at hp
            · simp at hp
            · rename_i key w3 hk
              split at hp
              · rename_i hv
                simp only [Prod.mk.injEq, Option.some.injEq] at hp
                obtain ⟨ht, hw⟩ := hp
                subst ht hw
                obtain ⟨hm, kid, hkid, hg⟩ := keyFunc_ok w aenv tok key w3 hk
                simp only [Bool.and_eq_true] at hv
                exact ⟨tok, sub, kid, key, hd, hsub, hm, hkid, hg, hv.1, hv.2, hc.symm⟩
              · simp at hp

theorem middleware_body (w : World) (aenv : AuthEnv) (c c1 : Context) (w1 : World)
    (body : RequestBody) (h : KeycloakAuthMiddleware w aenv c = (.next c1, w1)) :
    KeycloakAuthMiddleware w aenv { c with body := body }
      = (.next { c1 with body := body }, w1) := by
  obtain ⟨token, sub, kid, key, hd, hsub, hm, hkid, hg, hcv, hv, hc1⟩ :=
    middleware_next w aenv c c1 w1 h
  subst hc1
  unfold KeycloakAuthMiddleware at h ⊢
  simp only at h ⊢
  split at h
  · simp at h
  · rename_i hne
    rw [if_neg hne]
    split at h
    · simp at h
    · rename_i hne2
      rw [if_neg hne2]
      split at h
      · simp at h
      · rename_i tok w2 hp
        split at h
        · simp at h
        · rename_i sub2 hs2
          simp only [Prod.mk.injEq, MwResult.next.injEq] at h
          simp only [Prod.mk.injEq, MwResult.next.injEq]
          refine ⟨?_, h.2⟩
          have hsame : sub2 = sub := by
            have h1 := congrArg (fun x => x.Get "user_id") h.1
            simpa [Get_Set] using h1
          subst hsame
          rfl

theorem PurchaseTicket_calls (w : World) (env : Env) (c : Context) (uid : String)
    (req : PurchaseRequest) (hu : c.Get "user_id" = some uid)
    (hb : ShouldBindJSON c.body = .ok req) :
    ∃ rest, (PurchaseTicket w env c).2.calls
        = w.calls ++ Call.create uid req.EventID req.Quantity req.TotalPrice "pending" :: rest ∧
      (∀ x ∈ rest, ∃ msg : TicketMessage, x = Call.publish msg ∧ msg.UserID = uid) ∧
      ∀ tr, (PurchaseTicket w env c).1 = ⟨201, .ticket tr⟩ →
        tr.UserID = uid ∧ tr.Status = "pending" := by
  cases hc : env.createOk with
  | false =>
    refine ⟨[], ?_, ?_, ?_⟩ <;> simp [PurchaseTicket, hu, hb, dbCreateOne, hc]
  | true =>
    cases hid : w.store.findUnique env.newID with
    | some t0 =>
      refine ⟨[], ?_, ?_, ?_⟩ <;> simp [PurchaseTicket, hu, hb, dbCreateOne, hc, hid]
    | none =>
      rw [PurchaseTicket_created w env c uid req hu hb hc hid]
      refine ⟨[Call.publish
        ⟨env.newID, uid, req.EventID, req.Quantity, req.TotalPrice, env.now⟩], ?_, ?_, ?_⟩
      · simp [(publishTicketPurchased_frame _ _ _).2]
      · simp
      · intro tr htr
        simp only [Response.mk.injEq, Body.ticket.injEq, true_and] at htr
        subst htr
        exact ⟨rfl, rfl⟩

/-! ## Cancellation (`CancelTicket`) -/

/-- C1, counterexample: the owner `u1` cancels ticket `t1`, which is confirmed.  The
handler answers 200, issues the status update, and the stored ticket is now
`cancelled`: a non-pending ticket was not refused. -/
theorem cancelTicket_confirmed_not_refused :
    (CancelTicket (worldOf [sampleConfirmed]) envOk (ctxU1 .malformed)).1.status = 200 ∧
    (CancelTicket (worldOf [sampleConfirmed]) envOk (ctxU1 .malformed)).2.store
      = [{ sampleConfirmed with Status := "cancelled", UpdatedAt := 5 }] ∧
    (CancelTicket (worldOf [sampleConfirmed]) envOk (ctxU1 .malformed)).2.calls
      = [Call.findUnique "t1", Call.update "t1" "cancelled"] :=
  ⟨rfl, rfl, rfl⟩

/-- C1, amended: when the owner asks to cancel a ticket whose lookup succeeds, a
ticket with status `cancelled` is refused with 400 `already_cancelled`, no update is
issued (the only new call is the lookup) and the store is unchanged; a ticket with
any other status, `confirmed` included, passes the guard, and when the update
succeeds the answer is 200 and the stored status becomes `cancelled`. -/
theorem cancelTicket_owner (w : World) (env : Env) (c : Context) (t : TicketModel)
    (hfind : env.findOk = true) (hex : w.store.findUnique c.id = some t)
    (hown : c.Get "user_id" = some t.UserID) :
    (t.Status = "cancelled" →
      CancelTicket w env c =
        (⟨400, .error ⟨"already_cancelled", "Ticket is already cancelled"⟩⟩,
          { w with calls := w.calls ++ [Call.findUnique c.id] })) ∧
    (t.Status ≠ "cancelled" → env.updateOk = true →
      CancelTicket w env c =
        (⟨200, .ticket (mapTicketToResponse { t with Status := "cancelled", UpdatedAt := env.now })⟩,
          { w with store := w.store.updateStatus c.id "cancelled" env.now,
                   calls := w.calls ++ [Call.findUnique c.id, Call.update c.id "cancelled"] })) := by
  constructor
  · intro hs
    simp [CancelTicket, dbFindUnique, hfind, hex, hown, hs]
  · intro hs hup
    simp [CancelTicket, dbFindUnique, dbUpdateStatus, hfind, hex, hown, hs, hup]

/-- C1, witness of the amended statement on the cancelled sample ticket. -/
theorem cancelTicket_owner_witness :
    CancelTicket (worldOf [sampleCancelled]) envOk (ctxU1 .malformed) =
      (⟨400, .error ⟨"already_cancelled", "Ticket is already cancelled"⟩⟩,
        { worldOf [sampleCancelled] with calls := [Call.findUnique "t1"] }) :=
  (cancelTicket_owner (worldOf [sampleCancelled]) envOk (ctxU1 .malformed) sampleCancelled
    rfl rfl rfl).1 rfl

/-! ## Confirmation (`processTicketMessage`) -/

/-- C2, counterexample: the purchase event of ticket `t1` is delivered after `t1` was
cancelled.  `processTicketMessage` returns success, issues the update and the
notification, and the stored status is now `confirmed`. -/
theorem processTicketMessage_overwrites_cancelled :
    (processTicketMessage (worldOf [sampleCancelled]) envOk sampleDelivery).1 = .ok () ∧
    (processTicketMessage (worldOf [sampleCancelled]) envOk sampleDelivery).2.store
      = [{ sampleCancelled with Status := "confirmed", UpdatedAt := 5 }] ∧
    (processTicketMessage (worldOf [sampleCancelled]) envOk sampleDelivery).2.calls
      = [Call.findUnique "t1", Call.update "t1" "confirmed", Call.email sampleMessage] :=
  ⟨rfl, rfl, rfl⟩

/-- C2, amended: for a delivered purchase event whose ticket has status `cancelled`,
the ticket is left as it is exactly when the lookup or the update fails (the store
is then unchanged); when both succeed the guard, which skips only `confirmed`
tickets, lets the update through and the stored status becomes `confirmed`. -/
theorem processTicketMessage_cancelled (w : World) (env : Env) (tag : Nat) (m : TicketMessage)
    (t : TicketModel) (hex : w.store.findUnique m.TicketID = some t)
    (hs : t.Status = "cancelled") :
    (env.findOk = true → env.updateOk = true →
      (processTicketMessage w env ⟨tag, .json m⟩).1 = .ok () ∧
      (processTicketMessage w env ⟨tag, .json m⟩).2.store.findUnique m.TicketID
        = some { t with Status := "confirmed", UpdatedAt := env.now }) ∧
    ((env.findOk = false ∨ env.updateOk = false) →
      (processTicketMessage w env ⟨tag, .json m⟩).1 ≠ .ok () ∧
      (processTicketMessage w env ⟨tag, .json m⟩).2.store = w.store) := by
  have hne : ¬ t.Status = "confirmed" := by rw [hs]; decide
  constructor
  · intro hfind hup
    rw [processTicketMessage_found w env tag m t hfind hex]
    simp only [hne, hup, if_true, if_false]
    exact ⟨trivial, findUnique_updateStatus _ _ _ _ _ hex⟩
  · intro h
    cases hf : env.findOk with
    | false =>
      rw [processTicketMessage_lookup_fails w env tag m hf]
      exact ⟨by simp, rfl⟩
    | true =>
      have hup : env.updateOk = false := by
        rcases h with h | h
        · rw [hf] at h; cases h
        · exact h
      rw [processTicketMessage_found w env tag m t hf hex]
      simp [hne, hup]

/-- C2, witness of the amended statement on the cancelled sample ticket. -/
theorem processTicketMessage_cancelled_witness :
    (processTicketMessage (worldOf [sampleCancelled]) envOk ⟨7, .json sampleMessage⟩).1 = .ok () ∧
    (processTicketMessage (worldOf [sampleCancelled]) envOk
        ⟨7, .json sampleMessage⟩).2.store.findUnique "t1"
      = some { sampleCancelled with Status := "confirmed", UpdatedAt := 5 } :=
  (processTicketMessage_cancelled (worldOf [sampleCancelled]) envOk 7 sampleMessage
    sampleCancelled rfl rfl).1 rfl rfl

/-- C3: when the ticket of a well-formed purchase event is already `confirmed`,
`processTicketMessage` returns success having issued only the lookup (no update, no
notification), and redelivering the event any number of times leaves the world as
it was up to that many recorded lookups: same store (so the same `updatedAt`), no
update and no notification call; every redelivery whose lookup works is
acknowledged. -/
theorem confirmed_redelivery_idempotent (w : World) (tag : Nat) (m : TicketMessage)
    (t : TicketModel) (hex : w.store.findUnique m.TicketID = some t)
    (hs : t.Status = "confirmed") :
    (∀ env : Env, env.findOk = true →
      processTicketMessage w env ⟨tag, .json m⟩
        = (.ok (), { w with calls := w.calls ++ [Call.findUnique m.TicketID] })) ∧
    (∀ envs : List Env,
      (consumeTicketMessages w (envs.map fun e => (e, (⟨tag, .json m⟩ : Delivery)))).2
        = { w with calls := w.calls ++ List.replicate envs.length (Call.findUnique m.TicketID) }) ∧
    (∀ envs : List Env, (∀ e ∈ envs, e.findOk = true) →
      (consumeTicketMessages w (envs.map fun e => (e, (⟨tag, .json m⟩ : Delivery)))).1
        = List.replicate envs.length (AckAction.Ack tag false)) := by
  refine ⟨?_, ?_, ?_⟩
  · intro env hfind
    rw [processTicketMessage_found w env tag m t hfind hex, if_pos hs]
  · intro envs
    exact (consume_confirmed tag m t hs envs w hex).1
  · intro envs hall
    exact (consume_confirmed tag m t hs envs w hex).2 hall

/-- C3, witness: the confirmed sample ticket, its event delivered three more times. -/
theorem confirmed_redelivery_idempotent_witness :
    (consumeTicketMessages (worldOf [sampleConfirmed])
        ([envOk, envOk, envOk].map fun e => (e, (⟨7, .json sampleMessage⟩ : Delivery)))).2
      = { worldOf [sampleConfirmed] with
          calls := [Call.findUnique "t1", Call.findUnique "t1", Call.findUnique "t1"] } :=
  (confirmed_redelivery_idempotent (worldOf [sampleConfirmed]) 7 sampleMessage sampleConfirmed
    rfl rfl).2.1 [envOk, envOk, envOk]

/-- C4: the consumer loop issues exactly one acknowledgement call per delivery (as
many calls as deliveries, the one for a delivery appended after those of the
deliveries before it): `Nack(false, true)` when `processTicketMessage` returns an
error and `Ack(false)` otherwise; and `processTicketMessage` returns an error exactly
when the payload does not decode, the ticket lookup fails, or the ticket is not yet
confirmed and the status update fails. -/
theorem consumer_ack_policy (w : World) (ds : List (Env × Delivery)) (env : Env)
    (msg : Delivery) :
    (consumeTicketMessages w ds).1.length = ds.length ∧
    (consumeTicketMessages w (ds ++ [(env, msg)])).1 =
      (consumeTicketMessages w ds).1 ++
        [if (processTicketMessage (consumeTicketMessages w ds).2 env msg).1.isOk = true
          then AckAction.Ack msg.DeliveryTag false
          else AckAction.Nack msg.DeliveryTag false true] ∧
    ((processTicketMessage (consumeTicketMessages w ds).2 env msg).1.isOk = false ↔
      (msg.Body = .malformed ∨
        ∃ m, msg.Body = .json m ∧
          ((dbFindUnique (consumeTicketMessages w ds).2 env m.TicketID).1.isOk = false ∨
            ∃ t, (dbFindUnique (consumeTicketMessages w ds).2 env m.TicketID).1 = .ok t ∧
              t.Status ≠ "confirmed" ∧
              (dbUpdateStatus (dbFindUnique (consumeTicketMessages w ds).2 env m.TicketID).2
                env m.TicketID "confirmed").1.isOk = false))) := by
  refine ⟨consumeTicketMessages_length ds w, ?_, ?_⟩
  · rw [consumeTicketMessages_append]
    simp only [consumeTicketMessages, List.append_nil, consumeOne_action]
  · generalize (consumeTicketMessages w ds).2 = w1
    obtain ⟨tag, body⟩ := msg
    cases body with
    | malformed => simp [processTicketMessage, jsonUnmarshal, Except.isOk, Except.toBool]
    | json m =>
      simp only [processTicketMessage, jsonUnmarshal, false_or, reduceCtorEq, Payload.json.injEq,
        exists_eq_left']
      rcases hf : dbFindUnique w1 env m.TicketID with ⟨r, w2⟩
      cases r with
      | error e => simp [Except.isOk, Except.toBool]
      | ok t =>
        by_cases hs : t.Status = "confirmed"
        · simp [Except.isOk, Except.toBool, hs]
        · rcases hu : dbUpdateStatus w2 env m.TicketID "confirmed" with ⟨r2, w3⟩
          cases r2 <;> simp [Except.isOk, Except.toBool, hs, hu]

/-- C5: for a well-formed purchase event whose ticket is found with status
`pending`, when the store update succeeds `processTicketMessage` returns success, the
calls it issues are the lookup, the update to `confirmed` and one notification, the
stored ticket now has status `confirmed`, and the consumer loop acknowledges the
delivery. -/
theorem processTicketMessage_pending (w : World) (env : Env) (tag : Nat) (m : TicketMessage)
    (t : TicketModel) (hfind : env.findOk = true) (hup : env.updateOk = true)
    (hex : w.store.findUnique m.TicketID = some t) (hs : t.Status = "pending") :
    processTicketMessage w env ⟨tag, .json m⟩ =
      (.ok (), { w with
        store := w.store.updateStatus m.TicketID "confirmed" env.now,
        calls := w.calls ++ [Call.findUnique m.TicketID, Call.update m.TicketID "confirmed",
          Call.email m] }) ∧
    (processTicketMessage w env ⟨tag, .json m⟩).2.store.findUnique m.TicketID
      = some { t with Status := "confirmed", UpdatedAt := env.now } ∧
    (consumeOne w env ⟨tag, .json m⟩).1 = [AckAction.Ack tag false] := by
  have hne : ¬ t.Status = "confirmed" := by rw [hs]; decide
  have h := processTicketMessage_found w env tag m t hfind hex
  simp only [hne, hup, if_true, if_false] at h
  refine ⟨h, ?_, ?_⟩
  · rw [h]
    exact findUnique_updateStatus _ _ _ _ _ hex
  · simp [consumeOne, h]

/-- C5, witness: the pending sample ticket and its purchase event. -/
theorem processTicketMessage_pending_witness :
    (processTicketMessage (worldOf [samplePending]) envOk ⟨7, .json sampleMessage⟩).2.store.findUnique
        "t1"
      = some { samplePending with Status := "confirmed", UpdatedAt := 5 } :=
  (processTicketMessage_pending (worldOf [samplePending]) envOk 7 sampleMessage samplePending
    rfl rfl rfl rfl).2.1

/-! ## Purchase (`PurchaseTicket`) -/

/-- C6: when the auth middleware lets a purchase call through, the `user_id` it has
put in the context is the `sub` claim of the token it verified (RSA method, key found
in the cache under the token's `kid`, claims and signature valid), and for every
request body that passes validation the ticket handed to the store's create
operation has that subject as owner and status `pending`; the owner is the same for
every body, and any publish that follows carries the same owner. -/
theorem purchase_owner_is_token_subject (w : World) (aenv : AuthEnv) (env : Env)
    (c c1 : Context) (w1 : World)
    (hmw : KeycloakAuthMiddleware w aenv c = (.next c1, w1)) :
    ∃ token sub kid key,
      aenv.decode (TrimPrefix c.authorization "Bearer ") = some token ∧
      token.sub = some sub ∧ token.kid = some kid ∧ getKey w1.publicKeys kid = some key ∧
      token.verifies key = true ∧
      c1.Get "user_id" = some sub ∧
      ∀ (body : RequestBody) (req : PurchaseRequest), ShouldBindJSON body = .ok req →
        ∃ rest,
          (protectedRoute PurchaseTicket w aenv env { c with body := body }).2.calls
            = w1.calls ++
                Call.create sub req.EventID req.Quantity req.TotalPrice "pending" :: rest ∧
          (∀ x ∈ rest, ∃ msg : TicketMessage, x = Call.publish msg ∧ msg.UserID = sub) ∧
          ∀ tr, (protectedRoute PurchaseTicket w aenv env { c with body := body }).1
              = ⟨201, .ticket tr⟩ → tr.UserID = sub ∧ tr.Status = "pending" := by
  obtain ⟨token, sub, kid, key, hd, hsub, _, hkid, hg, _, hv, hc1⟩ :=
    middleware_next w aenv c c1 w1 hmw
  refine ⟨token, sub, kid, key, hd, hsub, hkid, hg, hv, ?_, ?_⟩
  · rw [hc1]; exact Get_Set c "user_id" sub
  · intro body req hb
    have hroute : protectedRoute PurchaseTicket w aenv env { c with body := body }
        = PurchaseTicket w1 env { c1 with body := body } := by
      simp [protectedRoute, middleware_body w aenv c c1 w1 body hmw]
    rw [hroute]
    have hu : ({ c1 with body := body } : Context).Get "user_id" = some sub := by
      rw [hc1]; exact Get_Set c "user_id" sub
    exact PurchaseTicket_calls w1 env { c1 with body := body } sub req hu hb

/-- C6, witness: the sample token passes the middleware and the owner is `u1`. -/
theorem purchase_owner_is_token_subject_witness :
    KeycloakAuthMiddleware sampleWorld sampleAuthEnv (ctxBearer .malformed)
        = (.next ((ctxBearer .malformed).Set "user_id" "u1"), sampleWorld) ∧
    ∃ sub,
      ((ctxBearer .malformed).Set "user_id" "u1").Get "user_id" = some sub ∧
      ∀ (body : RequestBody) (req : PurchaseRequest), ShouldBindJSON body = .ok req →
        ∃ rest,
          (protectedRoute PurchaseTicket sampleWorld sampleAuthEnv envOk
              { ctxBearer .malformed with body := body }).2.calls
            = sampleWorld.calls ++
                Call.create sub req.EventID req.Quantity req.TotalPrice "pending" :: rest ∧
          (∀ x ∈ rest, ∃ msg : TicketMessage, x = Call.publish msg ∧ msg.UserID = sub) ∧
          ∀ tr, (protectedRoute PurchaseTicket sampleWorld sampleAuthEnv envOk
              { ctxBearer .malformed with body := body }).1
              = ⟨201, .ticket tr⟩ → tr.UserID = sub ∧ tr.Status = "pending" := by
  refine ⟨rfl, ?_⟩
  obtain ⟨_, sub, _, _, _, _, _, _, _, hget, hall⟩ :=
    purchase_owner_is_token_subject sampleWorld sampleAuthEnv envOk (ctxBearer .malformed)
      ((ctxBearer .malformed).Set "user_id" "u1") sampleWorld rfl
  exact ⟨sub, hget, hall⟩

/-- C7, the code at the failing input: a purchase of one ticket with total price
exactly 0 by an authenticated user does not pass the binding tags of
`PurchaseRequest` (`required` rejects the zero value although `min=0` admits it); the
handler answers 400 and creates nothing. -/
theorem zero_total_price_rejected :
    validatePurchaseRequest freeRequest = false ∧
    PurchaseTicket (worldOf []) envOk (ctxU1 (.json freeRequest))
      = (⟨400, .error ⟨"invalid_request", "validation failed"⟩⟩, worldOf []) := by
  have h : validatePurchaseRequest freeRequest = false := by
    cases hv : validatePurchaseRequest freeRequest with
    | false => rfl
    | true =>
      have := (validatePurchaseRequest_iff freeRequest).1 hv
      simp [freeRequest] at this
  refine ⟨h, ?_⟩
  have hget : (ctxU1 (.json freeRequest)).Get "user_id" = some "u1" := rfl
  have hb : ShouldBindJSON (ctxU1 (.json freeRequest)).body = .error "validation failed" := by
    simp [ShouldBindJSON, ctxU1, h]
  simp only [PurchaseTicket, hget, hb]

/-- C8: a purchase whose quantity is below 1 or above 10, or whose total price is
negative, leaves the world as it was, so no store create and no publish is issued,
and an authenticated call (a `user_id` in the context) is answered 400; on the
tickets route, whenever the auth middleware lets such a call through, the answer is
400 and the world is as the middleware left it. -/
theorem purchase_invalid_rejected (w : World) (env : Env) (c : Context)
    (req : PurchaseRequest) (hb : c.body = .json req)
    (hbad : req.Quantity < 1 ∨ 10 < req.Quantity ∨ req.TotalPrice < 0) :
    (PurchaseTicket w env c).2 = w ∧
    (∀ uid, c.Get "user_id" = some uid → (PurchaseTicket w env c).1.status = 400) ∧
    (∀ aenv c1 w1, KeycloakAuthMiddleware w aenv c = (.next c1, w1) →
      (protectedRoute PurchaseTicket w aenv env c).1.status = 400 ∧
      (protectedRoute PurchaseTicket w aenv env c).2 = w1) := by
  have hv : validatePurchaseRequest req = false := by
    cases hv : validatePurchaseRequest req with
    | false => rfl
    | true =>
      obtain ⟨_, h1, h2, h3⟩ := (validatePurchaseRequest_iff req).1 hv
      rcases hbad with h | h | h
      · omega
      · omega
      · exact absurd h3 (not_lt.mpr (le_of_lt h))
  refine ⟨?_, ?_, ?_⟩
  · cases hu : c.Get "user_id" with
    | none => simp [PurchaseTicket, hu]
    | some uid => simp [PurchaseTicket, hu, hb, ShouldBindJSON, hv]
  · intro uid hu
    simp [PurchaseTicket, hu, hb, ShouldBindJSON, hv]
  · intro aenv c1 w1 hmw
    obtain ⟨_, sub, _, _, _, _, _, _, _, _, _, hc1⟩ := middleware_next w aenv c c1 w1 hmw
    have hu : c1.Get "user_id" = some sub := by rw [hc1]; exact Get_Set c "user_id" sub
    have hb1 : c1.body = .json req := by rw [hc1]; exact hb
    simp [protectedRoute, hmw, PurchaseTicket, hu, hb1, ShouldBindJSON, hv]

/-- C8, witness: eleven tickets asked for by the authenticated user `u1`. -/
theorem purchase_invalid_rejected_witness :
    (PurchaseTicket (worldOf []) envOk (ctxU1 (.json elevenRequest))).2 = worldOf [] ∧
    (PurchaseTicket (worldOf []) envOk (ctxU1 (.json elevenRequest))).1.status = 400 :=
  ⟨(purchase_invalid_rejected (worldOf []) envOk (ctxU1 (.json elevenRequest)) elevenRequest rfl
      (Or.inr (Or.inl (by decide)))).1,
    (purchase_invalid_rejected (worldOf []) envOk (ctxU1 (.json elevenRequest)) elevenRequest rfl
      (Or.inr (Or.inl (by decide)))).2.1 "u1" rfl⟩

/-- C9: once the store has created the ticket, the answer is 201 with the created
ticket and the store holds that ticket with status `pending`, whatever the state of
the broker service and whether or not the broker accepts the publish; the message
reaches the queue only when the channel is there and the broker accepts it. -/
theorem purchase_created_despite_publish (w : World) (env : Env) (c : Context) (uid : String)
    (req : PurchaseRequest) (hu : c.Get "user_id" = some uid)
    (hb : ShouldBindJSON c.body = .ok req) (hc : env.createOk = true)
    (hid : w.store.findUnique env.newID = none) (b : Bool) (r : RabbitMQService) :
    (PurchaseTicket { w with rmq := r } { env with brokerOk := b } c).1
      = ⟨201, .ticket (mapTicketToResponse
          (newRow env uid req.EventID req.Quantity req.TotalPrice "pending"))⟩ ∧
    (PurchaseTicket { w with rmq := r } { env with brokerOk := b } c).2.store
      = w.store ++ [newRow env uid req.EventID req.Quantity req.TotalPrice "pending"] ∧
    (PurchaseTicket { w with rmq := r } { env with brokerOk := b } c).2.store.findUnique env.newID
      = some (newRow env uid req.EventID req.Quantity req.TotalPrice "pending") ∧
    (newRow env uid req.EventID req.Quantity req.TotalPrice "pending").Status = "pending" ∧
    (PurchaseTicket { w with rmq := r } { env with brokerOk := b } c).2.queue
      = if r.channel = true ∧ b = true then
          w.queue ++
            [(⟨env.newID, uid, req.EventID, req.Quantity, req.TotalPrice, env.now⟩ : TicketMessage)]
        else w.queue := by
  have h := PurchaseTicket_created { w with rmq := r } { env with brokerOk := b } c uid req hu hb
    hc hid
  have hrow : newRow { env with brokerOk := b } uid req.EventID req.Quantity req.TotalPrice
      "pending" = newRow env uid req.EventID req.Quantity req.TotalPrice "pending" := rfl
  rw [hrow] at h
  rw [h]
  refine ⟨rfl, (publishTicketPurchased_frame _ _ _).1, ?_, rfl, ?_⟩
  · rw [(publishTicketPurchased_frame _ _ _).1]
    exact findUnique_append_new w.store _ hid
  · cases hch : r.channel <;> cases b <;>
      simp [publishTicketPurchased, RabbitMQService.PublishTicketPurchased, hch]

/-- C9, witness: the sample purchase by `u1` while the broker refuses the publish. -/
theorem purchase_created_despite_publish_witness :
    (PurchaseTicket { worldOf [] with rmq := (worldOf []).rmq }
        { envOk with brokerOk := false } (ctxU1 (.json sampleRequest))).1
      = ⟨201, .ticket (mapTicketToResponse (newRow envOk "u1" "evt-1" 2 (4998 / 100) "pending"))⟩ :=
  (purchase_created_despite_publish (worldOf []) envOk (ctxU1 (.json sampleRequest)) "u1"
    sampleRequest rfl
    (by
      have hv : validatePurchaseRequest sampleRequest = true :=
        (validatePurchaseRequest_iff sampleRequest).2 (by simp [sampleRequest])
      simp [ShouldBindJSON, ctxU1, hv])
    rfl rfl false (worldOf []).rmq).1

/-- C10: a purchase call hands exactly one message to `PublishTicketPurchased` when
the store created the ticket, and that message carries the created ticket's id,
owner, event id, quantity and total price; it hands none when the identity is
missing (401), when the body does not bind (400), or when the create fails (500, the
store unchanged). -/
theorem purchase_publish_attempts (w : World) (env : Env) (c : Context) :
    (∀ uid req t w1, c.Get "user_id" = some uid → ShouldBindJSON c.body = .ok req →
      dbCreateOne w env uid req.EventID req.Quantity req.TotalPrice "pending" = (.ok t, w1) →
      publishAttempts (PurchaseTicket w env c).2.calls
        = publishAttempts w.calls ++
            [{ TicketID := t.ID, UserID := t.UserID, EventID := t.EventID,
               Quantity := t.Quantity, TotalPrice := t.TotalPrice, Timestamp := env.now }]) ∧
    (c.Get "user_id" = none →
      (PurchaseTicket w env c).1.status = 401 ∧
      publishAttempts (PurchaseTicket w env c).2.calls = publishAttempts w.calls) ∧
    (∀ uid e, c.Get "user_id" = some uid → ShouldBindJSON c.body = .error e →
      (PurchaseTicket w env c).1.status = 400 ∧
      publishAttempts (PurchaseTicket w env c).2.calls = publishAttempts w.calls) ∧
    (∀ uid req e w1, c.Get "user_id" = some uid → ShouldBindJSON c.body = .ok req →
      dbCreateOne w env uid req.EventID req.Quantity req.TotalPrice "pending" = (.error e, w1) →
      (PurchaseTicket w env c).1.status = 500 ∧
      (PurchaseTicket w env c).2.store = w.store ∧
      publishAttempts (PurchaseTicket w env c).2.calls = publishAttempts w.calls) := by
  refine ⟨?_, ?_, ?_, ?_⟩
  · intro uid req t w1 hu hb hc
    have hcalls : w1.calls = w.calls ++
        [Call.create uid req.EventID req.Quantity req.TotalPrice "pending"] := by
      unfold dbCreateOne at hc
      simp only at hc
      split at hc
      · split at hc
        · simp at hc
        · simp only [Prod.mk.injEq, Except.ok.injEq] at hc
          rw [← hc.2]
      · simp at hc
    simp only [PurchaseTicket, hu, hb, hc, (publishTicketPurchased_frame _ _ _).2, hcalls,
      publishAttempts_append, publishAttempts, List.append_nil]
  · intro hu
    simp [PurchaseTicket, hu]
  · intro uid e hu hb
    simp [PurchaseTicket, hu, hb]
  · intro uid req e w1 hu hb hc
    have hw1 : w1 = { w with calls := w.calls ++
        [Call.create uid req.EventID req.Quantity req.TotalPrice "pending"] } := by
      unfold dbCreateOne at hc
      simp only at hc
      split at hc
      · split at hc
        · simp only [Prod.mk.injEq] at hc
          exact hc.2.symm
        · simp at hc
      · simp only [Prod.mk.injEq] at hc
        exact hc.2.symm
    simp [PurchaseTicket, hu, hb, hc, hw1, publishAttempts_append, publishAttempts]

/-- C10, witness: the sample purchase by `u1` hands one message, that of the created
ticket `t2`, to the broker service. -/
theorem purchase_publish_attempts_witness :
    publishAttempts (PurchaseTicket (worldOf []) envOk (ctxU1 (.json sampleRequest))).2.calls
      = publishAttempts (worldOf []).calls ++
          [{ TicketID := "t2", UserID := "u1", EventID := "evt-1", Quantity := 2,
             TotalPrice := 4998 / 100, Timestamp := 5 }] :=
  (purchase_publish_attempts (worldOf []) envOk (ctxU1 (.json sampleRequest))).1 "u1"
    sampleRequest (newRow envOk "u1" "evt-1" 2 (4998 / 100) "pending")
    { worldOf [] with
      store := [newRow envOk "u1" "evt-1" 2 (4998 / 100) "pending"],
      calls := [Call.create "u1" "evt-1" 2 (4998 / 100) "pending"] }
    rfl
    (by
      have hv : validatePurchaseRequest sampleRequest = true :=
        (validatePurchaseRequest_iff sampleRequest).2 (by simp [sampleRequest])
      simp [ShouldBindJSON, ctxU1, hv])
    rfl

/-! ## Ownership (`GetTicketByID`, `CancelTicket`) -/

/-- C11: for a ticket whose lookup succeeds and an authenticated caller who is not its
owner, `GetTicketByID` and `CancelTicket` both answer 403 `forbidden` with an error
body (no ticket is returned), and the only call either issues is the lookup, so
`CancelTicket` issues no update and the store is unchanged; the ticket's status
plays no part. -/
theorem non_owner_forbidden (w : World) (env : Env) (c : Context) (t : TicketModel)
    (uid : String) (hfind : env.findOk = true) (hex : w.store.findUnique c.id = some t)
    (hu : c.Get "user_id" = some uid) (hne : uid ≠ t.UserID) :
    GetTicketByID w env c =
      (⟨403, .error ⟨"forbidden", "You don't have permission to view this ticket"⟩⟩,
        { w with calls := w.calls ++ [Call.findUnique c.id] }) ∧
    CancelTicket w env c =
      (⟨403, .error ⟨"forbidden", "You don't have permission to cancel this ticket"⟩⟩,
        { w with calls := w.calls ++ [Call.findUnique c.id] }) := by
  have hne2 : ¬ t.UserID = uid := fun h => hne h.symm
  constructor
  · simp [GetTicketByID, dbFindUnique, hfind, hex, hu, hne2]
  · simp [CancelTicket, dbFindUnique, hfind, hex, hu, hne2]

/-- C11, witness: user `u2` asks for, and asks to cancel, the pending ticket of `u1`. -/
theorem non_owner_forbidden_witness :
    GetTicketByID (worldOf [samplePending]) envOk
        { ctxU1 .malformed with keys := [("user_id", "u2")] } =
      (⟨403, .error ⟨"forbidden", "You don't have permission to view this ticket"⟩⟩,
        { worldOf [samplePending] with calls := [Call.findUnique "t1"] }) ∧
    CancelTicket (worldOf [samplePending]) envOk
        { ctxU1 .malformed with keys := [("user_id", "u2")] } =
      (⟨403, .error ⟨"forbidden", "You don't have permission to cancel this ticket"⟩⟩,
        { worldOf [samplePending] with calls := [Call.findUnique "t1"] }) :=
  non_owner_forbidden (worldOf [samplePending]) envOk
    { ctxU1 .malformed with keys := [("user_id", "u2")] } samplePending "u2" rfl rfl rfl
    (by decide)

/-! ## The auth middleware when it refuses a call -/

/-- C12: when the `Authorization` header is empty (an absent header reads as empty) or
does not begin with `Bearer `, the middleware aborts with 401 and leaves the world
untouched; on a protected route the answer is that 401 whatever the handler is, so no
handler runs and no context with a `user_id` is ever handed on. -/
theorem missing_bearer_rejected (w : World) (aenv : AuthEnv) (c : Context)
    (h : c.authorization = "" ∨ "Bearer ".toList.isPrefixOf c.authorization.toList = false) :
    ∃ msg,
      KeycloakAuthMiddleware w aenv c = (.abort ⟨401, .h msg⟩, w) ∧
      ∀ (handler : World → Env → Context → Response × World) (env : Env),
        protectedRoute handler w aenv env c = (⟨401, .h msg⟩, w) := by
  by_cases he : c.authorization = ""
  · refine ⟨"Authorization header required", ?_, ?_⟩
    · simp [KeycloakAuthMiddleware, he]
    · intro handler env
      simp [protectedRoute, KeycloakAuthMiddleware, he]
  · have hp : "Bearer ".toList.isPrefixOf c.authorization.toList = false := by
      rcases h with h | h
      · exact absurd h he
      · exact h
    have ht : TrimPrefix c.authorization "Bearer " = c.authorization := by
      unfold TrimPrefix
      rw [hp]
      rfl
    refine ⟨"Invalid authorization format", ?_, ?_⟩
    · simp [KeycloakAuthMiddleware, he, ht]
    · intro handler env
      simp [protectedRoute, KeycloakAuthMiddleware, he, ht]

/-- C12, witness: a `Basic` credential in the header. -/
theorem missing_bearer_rejected_witness :
    ∃ msg,
      KeycloakAuthMiddleware sampleWorld sampleAuthEnv
          { ctxBearer .malformed with authorization := "Basic dTE6cHc" }
        = (.abort ⟨401, .h msg⟩, sampleWorld) ∧
      ∀ (handler : World → Env → Context → Response × World) (env : Env),
        protectedRoute handler sampleWorld sampleAuthEnv env
            { ctxBearer .malformed with authorization := "Basic dTE6cHc" }
          = (⟨401, .h msg⟩, sampleWorld) :=
  missing_bearer_rejected sampleWorld sampleAuthEnv
    { ctxBearer .malformed with authorization := "Basic dTE6cHc" } (Or.inr (by decide))

/-! ## Unknown key ids -/

theorem loadKeycloakPublicKeys_calls (w : World) (aenv : AuthEnv) :
    (loadKeycloakPublicKeys w aenv).2.calls = w.calls ++ [Call.fetchCerts] := by
  unfold loadKeycloakPublicKeys
  cases aenv.certs <;> rfl

theorem keyFunc_unknown (w : World) (aenv : AuthEnv) (token : Token) (kid : String)
    (hkid : token.kid = some kid) (h0 : getKey w.publicKeys kid = none)
    (h1 : getKey (loadKeycloakPublicKeys w aenv).2.publicKeys kid = none) :
    ∃ e w1, keyFunc w aenv token = (.error e, w1) := by
  unfold keyFunc
  by_cases hm : token.methodRSA = false
  · exact ⟨_, _, by rw [if_pos hm]⟩
  · rw [if_neg hm]
    simp only [hkid, h0]
    rcases hl : loadKeycloakPublicKeys w aenv with ⟨r, w1⟩
    rw [hl] at h1
    cases r with
    | error e => exact ⟨_, _, rfl⟩
    | ok u =>
      simp only at h1
      simp only [h1]
      exact ⟨_, _, rfl⟩

theorem keyFunc_world (w : World) (aenv : AuthEnv) (token : Token) :
    (keyFunc w aenv token).2 = w ∨
      ((keyFunc w aenv token).2 = (loadKeycloakPublicKeys w aenv).2 ∧
        ∃ kid, token.kid = some kid ∧ getKey w.publicKeys kid = none) := by
  unfold keyFunc
  by_cases hm : token.methodRSA = false
  · left; rw [if_pos hm]
  · rw [if_neg hm]
    cases hk : token.kid with
    | none => left; rfl
    | some kid =>
      simp only
      cases hg : getKey w.publicKeys kid with
      | some key => left; rfl
      | none =>
        right
        refine ⟨?_, kid, rfl, hg⟩
        rcases hl : loadKeycloakPublicKeys w aenv with ⟨r, w1⟩
        cases r with
        | error e => rfl
        | ok u =>
          simp only
          cases getKey w1.publicKeys kid <;> rfl

theorem jwtParse_world (w : World) (aenv : AuthEnv) (tokenString : String) :
    (jwtParse w aenv tokenString).2 = w ∨
      ∃ token, aenv.decode tokenString = some token ∧
        (jwtParse w aenv tokenString).2 = (keyFunc w aenv token).2 := by
  unfold jwtParse
  cases hd : aenv.decode tokenString with
  | none => left; rfl
  | some token =>
    right
    refine ⟨token, rfl, ?_⟩
    simp only
    rcases hk : keyFunc w aenv token with ⟨r, w1⟩
    cases r with
    | error e => rfl
    | ok key =>
      simp only
      split <;> rfl

theorem middleware_world (w : World) (aenv : AuthEnv) (c : Context) :
    (KeycloakAuthMiddleware w aenv c).2 = w ∨
      ∃ token, aenv.decode (TrimPrefix c.authorization "Bearer ") = some token ∧
        (KeycloakAuthMiddleware w aenv c).2 = (keyFunc w aenv token).2 := by
  have hw : (KeycloakAuthMiddleware w aenv c).2 = w ∨
      (KeycloakAuthMiddleware w aenv c).2
        = (jwtParse w aenv (TrimPrefix c.authorization "Bearer ")).2 := by
    unfold KeycloakAuthMiddleware
    simp only
    split
    · left; rfl
    · split
      · left; rfl
      · right
        rcases hp : jwtParse w aenv (TrimPrefix c.authorization "Bearer ") with ⟨r, w1⟩
        cases r with
        | none => rfl
        | some token =>
          simp only
          cases token.sub <;> rfl
  rcases hw with hw | hw
  · exact Or.inl hw
  · rcases jwtParse_world w aenv (TrimPrefix c.authorization "Bearer ") with hj | ⟨token, hd, hj⟩
    · left; rw [hw, hj]
    · right; exact ⟨token, hd, by rw [hw, hj]⟩

/-- C13: a token whose header key id is neither in the key cache nor in it after the
reload (the reload failing included) is refused: the middleware aborts with 401 and
on a protected route no handler runs.  Any run of the middleware issues no fetch of
the key set or exactly one; and it leaves the world untouched, so fetches nothing,
when the token's key id is already cached. -/
theorem unknown_kid_rejected (w : World) (aenv : AuthEnv) (c : Context) :
    (∀ token kid, aenv.decode (TrimPrefix c.authorization "Bearer ") = some token →
      token.kid = some kid → getKey w.publicKeys kid = none →
      getKey (loadKeycloakPublicKeys w aenv).2.publicKeys kid = none →
      ∃ msg, (KeycloakAuthMiddleware w aenv c).1 = .abort ⟨401, .h msg⟩ ∧
        ∀ (handler : World → Env → Context → Response × World) (env : Env),
          (protectedRoute handler w aenv env c).1 = ⟨401, .h msg⟩) ∧
    ((KeycloakAuthMiddleware w aenv c).2.calls = w.calls ∨
      (KeycloakAuthMiddleware w aenv c).2.calls = w.calls ++ [Call.fetchCerts]) ∧
    (∀ token kid key, aenv.decode (TrimPrefix c.authorization "Bearer ") = some token →
      token.kid = some kid → getKey w.publicKeys kid = some key →
      (KeycloakAuthMiddleware w aenv c).2 = w) := by
  refine ⟨?_, ?_, ?_⟩
  · intro token kid hd hkid h0 h1
    obtain ⟨e, w1, hk⟩ := keyFunc_unknown w aenv token kid hkid h0 h1
    have hmw : ∃ msg w2, KeycloakAuthMiddleware w aenv c = (.abort ⟨401, .h msg⟩, w2) := by
      unfold KeycloakAuthMiddleware
      simp only
      split
      · exact ⟨_, _, rfl⟩
      · split
        · exact ⟨_, _, rfl⟩
        · simp only [jwtParse, hd, hk]
          exact ⟨_, _, rfl⟩
    obtain ⟨msg, w2, hmw⟩ := hmw
    refine ⟨msg, by rw [hmw], ?_⟩
    intro handler env
    simp only [protectedRoute, hmw]
  · rcases middleware_world w aenv c with hw | ⟨token, _, hw⟩
    · left; rw [hw]
    · rcases keyFunc_world w aenv token with hk | ⟨hk, _⟩
      · left; rw [hw, hk]
      · right; rw [hw, hk, loadKeycloakPublicKeys_calls]
  · intro token kid key hd hkid hg
    rcases middleware_world w aenv c with hw | ⟨token2, hd2, hw⟩
    · exact hw
    · rw [hd] at hd2
      cases hd2
      rcases keyFunc_world w aenv token with hk | ⟨_, kid2, hkid2, hg2⟩
      · rw [hw, hk]
      · rw [hkid] at hkid2
        cases hkid2
        rw [hg] at hg2
        cases hg2

/-- C13, witness: the key id `k9` is not cached and the reloaded document defines
only `k2`; the call is refused with 401 after one fetch. -/
theorem unknown_kid_rejected_witness :
    (∃ msg, (KeycloakAuthMiddleware sampleWorld reloadAuthEnv
        { ctxBearer .malformed with authorization := "Bearer tok9" }).1
          = .abort ⟨401, .h msg⟩ ∧
        ∀ (handler : World → Env → Context → Response × World) (env : Env),
          (protectedRoute handler sampleWorld reloadAuthEnv env
            { ctxBearer .malformed with authorization := "Bearer tok9" }).1
              = ⟨401, .h msg⟩) ∧
    (KeycloakAuthMiddleware sampleWorld reloadAuthEnv
        { ctxBearer .malformed with authorization := "Bearer tok9" }).2.calls
      = [Call.fetchCerts] :=
  ⟨(unknown_kid_rejected sampleWorld reloadAuthEnv
      { ctxBearer .malformed with authorization := "Bearer tok9" }).1 unknownKidToken "k9"
      rfl rfl rfl (by decide),
    rfl⟩

/-! ## Key parsing (`parseRSAPublicKey`) -/

theorem mapM_nil_opt (f : Char → Option Nat) : List.mapM f [] = some [] := rfl

theorem mapM_cons_opt (f : Char → Option Nat) (a : Char) (rest : List Char) :
    List.mapM f (a :: rest) = (f a).bind fun v => (List.mapM f rest).map (fun vs => v :: vs) := by
  rw [List.mapM_cons]
  cases f a with
  | none => rfl
  | some v => cases List.mapM f rest <;> rfl

theorem mapM_none_iff (f : Char → Option Nat) (l : List Char) :
    List.mapM f l = none ↔ ∃ c ∈ l, f c = none := by
  induction l with
  | nil => rw [mapM_nil_opt]; simp
  | cons a rest ih =>
    rw [mapM_cons_opt]
    simp only [List.mem_cons, exists_eq_or_imp, ← ih]
    cases f a with
    | none => simp
    | some v => cases List.mapM f rest <;> simp

theorem mapM_some_bound (f : Char → Option Nat) (l : List Char) (k : Nat)
    (hf : ∀ c v, f c = some v → v < k) :
    ∀ vs, List.mapM f l = some vs → vs.length = l.length ∧ ∀ v ∈ vs, v < k := by
  induction l with
  | nil =>
    intro vs h
    rw [mapM_nil_opt] at h
    cases h
    simp
  | cons a rest ih =>
    intro vs h
    rw [mapM_cons_opt] at h
    cases ha : f a with
    | none => simp [ha] at h
    | some v =>
      cases hr : List.mapM f rest with
      | none =>
        rw [ha, hr] at h
        cases h
      | some ws =>
        rw [ha, hr] at h
        simp only [Option.some_bind, Option.map_some', Option.some.injEq] at h
        subst h
        obtain ⟨h1, h2⟩ := ih ws hr
        refine ⟨by simp [h1], ?_⟩
        intro x hx
        rcases List.mem_cons.1 hx with hx | hx
        · subst hx; exact hf a _ ha
        · exact h2 x hx

theorem decodeQuanta_none_iff (l : List Nat) : decodeQuanta l = none ↔ l.length % 4 = 1 := by
  induction l using decodeQuanta.induct with
  | case1 a b c d rest ih =>
    simp only [decodeQuanta, Option.map_eq_none', ih, List.length_cons]
    omega
  | case2 a b c => simp [decodeQuanta]
  | case3 a b => simp [decodeQuanta]
  | case4 a => simp [decodeQuanta]
  | case5 => simp [decodeQuanta]

theorem decodeQuanta_bytes (l : List Nat) (hl : ∀ v ∈ l, v < 64) :
    ∀ bs, decodeQuanta l = some bs → ∀ b ∈ bs, b < 256 := by
  induction l using decodeQuanta.induct with
  | case1 a b c d rest ih =>
    intro bs h x hx
    simp only [decodeQuanta, Option.map_eq_some'] at h
    obtain ⟨bs0, h0, hbs⟩ := h
    subst hbs
    have ha : a < 64 := hl a (by simp)
    have hb : b < 64 := hl b (by simp)
    have hc : c < 64 := hl c (by simp)
    have hd : d < 64 := hl d (by simp)
    have hrest : ∀ v ∈ rest, v < 64 := fun v hv => hl v (by simp [hv])
    simp only [List.mem_cons] at hx
    rcases hx with hx | hx | hx | hx
    · omega
    · omega
    · omega
    · exact ih hrest bs0 h0 x hx
  | case2 a b c =>
    intro bs h x hx
    simp only [decodeQuanta, Option.some.injEq] at h
    subst h
    have ha : a < 64 := hl a (by simp)
    have hb : b < 64 := hl b (by simp)
    have hc : c < 64 := hl c (by simp)
    simp only [List.mem_cons, List.mem_singleton, List.not_mem_nil, or_false] at hx
    rcases hx with hx | hx <;> omega
  | case3 a b =>
    intro bs h x hx
    simp only [decodeQuanta, Option.some.injEq] at h
    subst h
    have ha : a < 64 := hl a (by simp)
    have hb : b < 64 := hl b (by simp)
    simp only [List.mem_singleton] at hx
    omega
  | case4 a => intro bs h; simp [decodeQuanta] at h
  | case5 =>
    intro bs h x hx
    simp only [decodeQuanta, Option.some.injEq] at h
    subst h
    simp at hx

theorem b64urlValue_lt (c : Char) (v : Nat) (h : b64urlValue c = some v) : v < 64 := by
  unfold b64urlValue at h
  split at h
  · rename_i hc
    have h2 : c.toNat ≤ 90 := hc.2
    simp only [Option.some.injEq] at h
    omega
  · split at h
    · rename_i hc
      have h2 : c.toNat ≤ 122 := hc.2
      simp only [Option.some.injEq] at h
      omega
    · split at h
      · rename_i hc
        have h2 : c.toNat ≤ 57 := hc.2
        simp only [Option.some.injEq] at h
        omega
      · split at h
        · simp only [Option.some.injEq] at h; omega
        · split at h
          · simp only [Option.some.injEq] at h; omega
          · simp at h

theorem Int64_eq_iff (e : Nat) : Int64 e = (e : Int) ↔ e < 2 ^ 63 := by
  unfold Int64
  split <;> omega

theorem SetBytes_foldl_lt (bs : List Nat) (hb : ∀ b ∈ bs, b < 256) :
    ∀ acc, bs.foldl (fun acc x => acc * 256 + x) acc < (acc + 1) * 256 ^ bs.length := by
  induction bs with
  | nil => intro acc; simp
  | cons b rest ih =>
    intro acc
    have hb0 : b < 256 := hb b (by simp)
    have hrest : ∀ x ∈ rest, x < 256 := fun x hx => hb x (by simp [hx])
    have h := ih hrest (acc * 256 + b)
    simp only [List.foldl_cons, List.length_cons]
    calc List.foldl (fun acc x => acc * 256 + x) (acc * 256 + b) rest
        < (acc * 256 + b + 1) * 256 ^ rest.length := h
      _ ≤ ((acc + 1) * 256) * 256 ^ rest.length := by
          apply Nat.mul_le_mul_right
          omega
      _ = (acc + 1) * 256 ^ (rest.length + 1) := by ring

theorem DecodeString_some (s : String) (bs : List Nat) (h : DecodeString s = some bs) :
    ∃ vs, List.mapM b64urlValue (s.toList.filter (fun c => c ≠ '\n' ∧ c ≠ '\r')) = some vs ∧
      decodeQuanta vs = some bs := by
  unfold DecodeString at h
  cases hm : List.mapM b64urlValue (s.toList.filter (fun c => c ≠ '\n' ∧ c ≠ '\r')) with
  | none => rw [hm] at h; cases h
  | some vs => rw [hm] at h; exact ⟨vs, rfl, h⟩

theorem DecodeString_bytes (s : String) (bs : List Nat) (h : DecodeString s = some bs) :
    ∀ b ∈ bs, b < 256 := by
  obtain ⟨vs, hm, hq⟩ := DecodeString_some s bs h
  have hv := (mapM_some_bound b64urlValue _ 64 b64urlValue_lt vs hm).2
  exact decodeQuanta_bytes vs hv bs hq

theorem DecodeString_none_iff (s : String) :
    DecodeString s = none ↔
      ((∃ c ∈ s.toList, c ≠ '\n' ∧ c ≠ '\r' ∧ b64urlValue c = none) ∨
        (s.toList.filter (fun c => c ≠ '\n' ∧ c ≠ '\r')).length % 4 = 1) := by
  unfold DecodeString
  cases hm : List.mapM b64urlValue (s.toList.filter (fun c => c ≠ '\n' ∧ c ≠ '\r')) with
  | none =>
    have h := (mapM_none_iff b64urlValue _).1 hm
    obtain ⟨c, hc, hv⟩ := h
    simp only [List.mem_filter, decide_eq_true_eq] at hc
    simp only [Option.none_bind, true_iff]
    exact Or.inl ⟨c, hc.1, hc.2.1, hc.2.2, hv⟩
  | some vs =>
    have hlen := (mapM_some_bound b64urlValue _ 64 b64urlValue_lt vs hm).1
    have hno : ¬ ∃ c ∈ s.toList, c ≠ '\n' ∧ c ≠ '\r' ∧ b64urlValue c = none := by
      rintro ⟨c, hc, h1, h2, hv⟩
      have hmem : c ∈ s.toList.filter (fun c => c ≠ '\n' ∧ c ≠ '\r') := by
        simp only [List.mem_filter, decide_eq_true_eq]
        exact ⟨hc, h1, h2⟩
      have := (mapM_none_iff b64urlValue _).2 ⟨c, hmem, hv⟩
      rw [hm] at this
      cases this
    simp only [Option.some_bind, decodeQuanta_none_iff, hlen, hno, false_or]

/-- C14, counterexample: the exponent string `AQAAAAAAAAAB` is valid unpadded
base64url for the nine bytes `01 00 00 00 00 00 00 00 01`, whose unsigned big-endian
value is `2 ^ 64 + 1`, yet the key returned has exponent 1. -/
theorem parseRSAPublicKey_truncates_exponent :
    DecodeString "AQAAAAAAAAAB" = some [1, 0, 0, 0, 0, 0, 0, 0, 1] ∧
    SetBytes [1, 0, 0, 0, 0, 0, 0, 0, 1] = 2 ^ 64 + 1 ∧
    parseRSAPublicKey "AQAB" "AQAAAAAAAAAB" = .ok ⟨65537, 1⟩ :=
  ⟨by decide, by decide, rfl⟩

/-- C14, amended: `parseRSAPublicKey` fails exactly when `n` or `e` does not decode
as unpadded base64url, that is, when, carriage returns and line feeds left aside, it
holds a character outside the URL-safe alphabet or its length is 1 modulo 4.
Otherwise the modulus is the unsigned big-endian value of the bytes of `n`, and the
exponent is the low 64 bits of the unsigned big-endian value of the bytes of `e` read
as a signed 64-bit integer: it equals that value exactly when the value is below
`2 ^ 63`, in particular for every exponent of at most seven bytes, and `AQAB` gives
65537. -/
theorem parseRSAPublicKey_spec (nStr eStr : String) :
    ((∃ err, parseRSAPublicKey nStr eStr = .error err) ↔
      (DecodeString nStr = none ∨ DecodeString eStr = none)) ∧
    (∀ s : String, DecodeString s = none ↔
      ((∃ c ∈ s.toList, c ≠ '\n' ∧ c ≠ '\r' ∧ b64urlValue c = none) ∨
        (s.toList.filter (fun c => c ≠ '\n' ∧ c ≠ '\r')).length % 4 = 1)) ∧
    (∀ nBytes eBytes, DecodeString nStr = some nBytes → DecodeString eStr = some eBytes →
      parseRSAPublicKey nStr eStr = .ok ⟨SetBytes nBytes, Int64 (SetBytes eBytes)⟩ ∧
      (Int64 (SetBytes eBytes) = (SetBytes eBytes : Int) ↔ SetBytes eBytes < 2 ^ 63) ∧
      (eBytes.length ≤ 7 → Int64 (SetBytes eBytes) = (SetBytes eBytes : Int))) ∧
    (∀ nBytes, DecodeString nStr = some nBytes →
      parseRSAPublicKey nStr "AQAB" = .ok ⟨SetBytes nBytes, 65537⟩) := by
  refine ⟨?_, DecodeString_none_iff, ?_, ?_⟩
  · unfold parseRSAPublicKey
    cases hn : DecodeString nStr with
    | none => simp
    | some nBytes =>
      cases he : DecodeString eStr with
      | none => simp
      | some eBytes => simp
  · intro nBytes eBytes hn he
    refine ⟨by simp only [parseRSAPublicKey, hn, he], Int64_eq_iff _, ?_⟩
    intro hlen
    rw [Int64_eq_iff]
    have hlt := SetBytes_foldl_lt eBytes (DecodeString_bytes eStr eBytes he) 0
    have hpow : 256 ^ eBytes.length ≤ 256 ^ 7 := Nat.pow_le_pow_right (by decide) hlen
    have h7 : (256 : Nat) ^ 7 < 2 ^ 63 := by decide
    unfold SetBytes
    omega
  · intro nBytes hn
    have he : DecodeString "AQAB" = some [1, 0, 1] := by decide
    simp only [parseRSAPublicKey, hn, he]
    rfl

/-- C14, witness: the usual exponent `AQAB` with the modulus string `AQAB`. -/
theorem parseRSAPublicKey_spec_witness :
    parseRSAPublicKey "AQAB" "AQAB" = .ok ⟨SetBytes [1, 0, 1], 65537⟩ :=
  (parseRSAPublicKey_spec "AQAB" "AQAB").2.2.2 [1, 0, 1] (by decide)

/-! ## The route table (`SetupRouter`) -/

theorem GetAllTickets_ok (w : World) (env : Env) (c : Context) (hfind : env.findOk = true) :
    GetAllTickets w env c =
      (⟨200, .tickets ((Store.orderByCreatedAtDesc w.store).map mapTicketToResponse)⟩,
        { w with calls := w.calls ++ [Call.findMany none] }) ∧
    (Store.orderByCreatedAtDesc w.store).Perm w.store := by
  refine ⟨by simp [GetAllTickets, dbFindMany, hfind], ?_⟩
  exact List.perm_insertionSort _ _

/-- C15, the code at the failing input: a `GET` on the tickets collection path
`/api/v1/tickets` matches no route of the table built by `SetupRouter`, no route of the
table has `GetAllTickets` as handler, and the engine answers the request, sent with a
valid token, with its 404 and runs nothing; the handler itself, were it called, would
answer 200 with the tickets of the store. -/
theorem list_all_route_missing :
    dispatch SetupRouter "GET" ["api", "v1", "tickets"] = none ∧
    (∀ r ∈ SetupRouter, r.handler ≠ Handler.GetAllTickets) ∧
    ServeHTTP { sampleWorld with store := [samplePending] } sampleAuthEnv envOk "GET"
        ["api", "v1", "tickets"] (ctxBearer .malformed)
      = (⟨404, .text "404 page not found"⟩, { sampleWorld with store := [samplePending] }) ∧
    (GetAllTickets { sampleWorld with store := [samplePending] } envOk
        (ctxU1 .malformed)).1
      = ⟨200, .tickets [mapTicketToResponse samplePending]⟩ :=
  ⟨by decide, by decide, rfl, rfl⟩

/-! ## What a status update leaves alone -/

theorem updateStatus_frame (id status : String) (now : Nat) (s : Store) :
    List.Forall₂
      (fun t t2 : TicketModel => t2.ID = t.ID ∧ t2.UserID = t.UserID ∧ t2.EventID = t.EventID ∧
        t2.Quantity = t.Quantity ∧ t2.TotalPrice = t.TotalPrice ∧ t2.CreatedAt = t.CreatedAt ∧
        (t.ID ≠ id → t2 = t))
      s (s.updateStatus id status now) := by
  induction s with
  | nil => exact List.Forall₂.nil
  | cons a rest ih =>
    refine List.Forall₂.cons ?_ ih
    by_cases ha : a.ID = id
    · simp [ha]
    · simp [ha]

theorem same_frame (id : String) (s : Store) :
    List.Forall₂
      (fun t t2 : TicketModel => t2.ID = t.ID ∧ t2.UserID = t.UserID ∧ t2.EventID = t.EventID ∧
        t2.Quantity = t.Quantity ∧ t2.TotalPrice = t.TotalPrice ∧ t2.CreatedAt = t.CreatedAt ∧
        (t.ID ≠ id → t2 = t))
      s s :=
  List.forall₂_same.2 (fun _ _ => ⟨rfl, rfl, rfl, rfl, rfl, rfl, fun _ => rfl⟩)

theorem dbUpdateStatus_world (w : World) (env : Env) (id status : String) :
    (dbUpdateStatus w env id status).2 = { w with calls := w.calls ++ [Call.update id status] } ∨
    (dbUpdateStatus w env id status).2
      = { w with store := w.store.updateStatus id status env.now,
                 calls := w.calls ++ [Call.update id status] } := by
  unfold dbUpdateStatus
  cases env.updateOk with
  | false => left; rfl
  | true =>
    cases w.store.findUnique id with
    | none => left; rfl
    | some t => right; rfl

theorem CancelTicket_world (w : World) (env : Env) (c : Context) :
    (CancelTicket w env c).2 = w ∨
    (CancelTicket w env c).2 = { w with calls := w.calls ++ [Call.findUnique c.id] } ∨
    (CancelTicket w env c).2 = (dbUpdateStatus
      { w with calls := w.calls ++ [Call.findUnique c.id] } env c.id "cancelled").2 := by
  unfold CancelTicket
  cases c.Get "user_id" with
  | none => left; rfl
  | some userID =>
    simp only
    have hw : ∀ r, dbFindUnique w env c.id = r →
        r.2 = { w with calls := w.calls ++ [Call.findUnique c.id] } := by
      intro r hr
      rw [← hr]
      unfold dbFindUnique
      cases env.findOk with
      | false => rfl
      | true => cases w.store.findUnique c.id <;> rfl
    rcases hf : dbFindUnique w env c.id with ⟨r, w1⟩
    have hw1 := hw _ hf
    simp only at hw1
    subst hw1
    cases r with
    | error e => right; left; rfl
    | ok ticket =>
      simp only
      split
      · right; left; rfl
      · split
        · right; left; rfl
        · right; right
          rcases hu : dbUpdateStatus
            { w with calls := w.calls ++ [Call.findUnique c.id] } env c.id "cancelled"
            with ⟨r2, w2⟩
          cases r2 <;> rfl

theorem processTicketMessage_world (w : World) (env : Env) (tag : Nat) (m : TicketMessage) :
    (processTicketMessage w env ⟨tag, .json m⟩).2
        = { w with calls := w.calls ++ [Call.findUnique m.TicketID] } ∨
    (processTicketMessage w env ⟨tag, .json m⟩).2 = (dbUpdateStatus
      { w with calls := w.calls ++ [Call.findUnique m.TicketID] } env m.TicketID "confirmed").2 ∨
    (processTicketMessage w env ⟨tag, .json m⟩).2 = sendConfirmationEmail (dbUpdateStatus
      { w with calls := w.calls ++ [Call.findUnique m.TicketID] } env m.TicketID "confirmed").2
      m := by
  unfold processTicketMessage
  simp only [jsonUnmarshal]
  have hw : ∀ r, dbFindUnique w env m.TicketID = r →
      r.2 = { w with calls := w.calls ++ [Call.findUnique m.TicketID] } := by
    intro r hr
    rw [← hr]
    unfold dbFindUnique
    cases env.findOk with
    | false => rfl
    | true => cases w.store.findUnique m.TicketID <;> rfl
  rcases hf : dbFindUnique w env m.TicketID with ⟨r, w1⟩
  have hw1 := hw _ hf
  simp only at hw1
  subst hw1
  cases r with
  | error e => left; rfl
  | ok ticket =>
    simp only
    split
    · left; rfl
    · right
      rcases hu : dbUpdateStatus
        { w with calls := w.calls ++ [Call.findUnique m.TicketID] } env m.TicketID "confirmed"
        with ⟨r2, w2⟩
      cases r2 with
      | error e => left; rfl
      | ok t => right; rfl

/-- C16: the cancel update of `CancelTicket` and the confirm update of
`processTicketMessage` pass the store an id and a status only, and after either
operation the store holds, position by position, tickets with the same id, owner,
event id, quantity, total price and creation time as before, every ticket whose id is
not the selected one being exactly as it was; a delivery that does not decode leaves
the store as it is. -/
theorem status_update_frame (w : World) (env : Env) :
    (∀ c : Context,
      List.Forall₂
        (fun t t2 : TicketModel => t2.ID = t.ID ∧ t2.UserID = t.UserID ∧
          t2.EventID = t.EventID ∧ t2.Quantity = t.Quantity ∧ t2.TotalPrice = t.TotalPrice ∧
          t2.CreatedAt = t.CreatedAt ∧ (t.ID ≠ c.id → t2 = t))
        w.store (CancelTicket w env c).2.store ∧
      ∀ id status, Call.update id status ∈ (CancelTicket w env c).2.calls →
        Call.update id status ∈ w.calls ∨ (id = c.id ∧ status = "cancelled")) ∧
    (∀ (tag : Nat) (m : TicketMessage),
      List.Forall₂
        (fun t t2 : TicketModel => t2.ID = t.ID ∧ t2.UserID = t.UserID ∧
          t2.EventID = t.EventID ∧ t2.Quantity = t.Quantity ∧ t2.TotalPrice = t.TotalPrice ∧
          t2.CreatedAt = t.CreatedAt ∧ (t.ID ≠ m.TicketID → t2 = t))
        w.store (processTicketMessage w env ⟨tag, .json m⟩).2.store ∧
      ∀ id status, Call.update id status ∈ (processTicketMessage w env ⟨tag, .json m⟩).2.calls →
        Call.update id status ∈ w.calls ∨ (id = m.TicketID ∧ status = "confirmed")) ∧
    (∀ tag : Nat, (processTicketMessage w env ⟨tag, .malformed⟩).2 = w) := by
  refine ⟨?_, ?_, ?_⟩
  · intro c
    rcases CancelTicket_world w env c with h | h | h
    · rw [h]
      exact ⟨same_frame c.id w.store, fun id status hm => Or.inl hm⟩
    · rw [h]
      refine ⟨same_frame c.id w.store, ?_⟩
      intro id status hm
      simp at hm
      exact Or.inl hm
    · rw [h]
      rcases dbUpdateStatus_world
        { w with calls := w.calls ++ [Call.findUnique c.id] } env c.id "cancelled" with h2 | h2
      · rw [h2]
        refine ⟨same_frame c.id w.store, ?_⟩
        intro id status hm
        simp at hm
        rcases hm with hm | hm
        · exact Or.inl hm
        · exact Or.inr hm
      · rw [h2]
        refine ⟨updateStatus_frame c.id "cancelled" env.now w.store, ?_⟩
        intro id status hm
        simp at hm
        rcases hm with hm | hm
        · exact Or.inl hm
        · exact Or.inr hm
  · intro tag m
    have hupd := dbUpdateStatus_world
      { w with calls := w.calls ++ [Call.findUnique m.TicketID] } env m.TicketID "confirmed"
    rcases processTicketMessage_world w env tag m with h | h | h
    · rw [h]
      refine ⟨same_frame m.TicketID w.store, ?_⟩
      intro id status hm
      simp at hm
      exact Or.inl hm
    · rw [h]
      rcases hupd with h2 | h2
      · rw [h2]
        refine ⟨same_frame m.TicketID w.store, ?_⟩
        intro id status hm
        simp at hm
        rcases hm with hm | hm
        · exact Or.inl hm
        · exact Or.inr hm
      · rw [h2]
        refine ⟨updateStatus_frame m.TicketID "confirmed" env.now w.store, ?_⟩
        intro id status hm
        simp at hm
        rcases hm with hm | hm
        · exact Or.inl hm
        · exact Or.inr hm
    · rw [h]
      rcases hupd with h2 | h2
      · rw [h2]
        refine ⟨same_frame m.TicketID w.store, ?_⟩
        intro id status hm
        simp [sendConfirmationEmail] at hm
        rcases hm with hm | hm
        · exact Or.inl hm
        · exact Or.inr hm
      · rw [h2]
        refine ⟨updateStatus_frame m.TicketID "confirmed" env.now w.store, ?_⟩
        intro id status hm
        simp [sendConfirmationEmail] at hm
        rcases hm with hm | hm
        · exact Or.inl hm
        · exact Or.inr hm
  · intro tag
    rfl

/-! ## Loading the key set (`loadKeycloakPublicKeys`) -/

theorem getKey_filter_ne (m : List (String × PublicKey)) (k kid : String) (h : kid ≠ k) :
    getKey (m.filter (fun kv => kv.1 != k)) kid = getKey m kid := by
  induction m with
  | nil => rfl
  | cons a rest ih =>
    unfold getKey at ih ⊢
    by_cases ha : a.1 = k
    · have hne : ¬ a.1 = kid := fun h2 => h (h2.symm.trans ha)
      simp only [List.filter_cons, ha, bne_self_eq_false, Bool.false_eq_true, ↓reduceIte]
      rw [List.find?_cons_of_neg _ (by simpa using hne)]
      simpa [ha] using ih
    · have hb : (a.1 != k) = true := by simpa using ha
      simp only [List.filter_cons, hb, ↓reduceIte, List.find?_cons]
      cases hk : (a.1 == kid) with
      | true => rfl
      | false => simpa using ih

theorem getKey_setKey (m : List (String × PublicKey)) (k kid : String) (v : PublicKey) :
    getKey (setKey m k v) kid = if kid = k then some v else getKey m kid := by
  by_cases h : kid = k
  · subst h
    simp [getKey, setKey]
  · rw [if_neg h]
    have hne : ¬ k = kid := fun h2 => h h2.symm
    have := getKey_filter_ne m k kid h
    unfold getKey at this ⊢
    unfold setKey
    rw [List.find?_cons_of_neg _ (by simpa using hne)]
    exact this

theorem getKey_loadKey (m : List (String × PublicKey)) (k : Jwk) (kid : String) :
    getKey (loadKey m k) kid =
      if (decide (k.Kid = kid ∧ k.Kty = "RSA") && (parseRSAPublicKey k.N k.E).toBool) = true
      then (parseRSAPublicKey k.N k.E).toOption else getKey m kid := by
  unfold loadKey
  by_cases hty : k.Kty = "RSA"
  · rw [if_pos hty]
    cases hp : parseRSAPublicKey k.N k.E with
    | error e => simp [Except.toBool]
    | ok pk =>
      simp only [getKey_setKey, Except.toBool, Except.toOption, hty, and_true, Bool.and_true,
        decide_eq_true_eq]
      by_cases hk : kid = k.Kid
      · subst hk; simp
      · have hk2 : ¬ k.Kid = kid := fun h => hk h.symm
        simp [hk, hk2]
  · rw [if_neg hty]
    simp [hty]

theorem getKey_foldl_loadKey (m : List (String × PublicKey)) (kid : String) (keys : List Jwk) :
    getKey (keys.foldl loadKey m) kid =
      match (keys.filter (fun k => decide (k.Kid = kid ∧ k.Kty = "RSA") &&
          (parseRSAPublicKey k.N k.E).toBool)).getLast? with
      | some k => (parseRSAPublicKey k.N k.E).toOption
      | none => getKey m kid := by
  induction keys using List.reverseRecOn with
  | nil => rfl
  | append_singleton ks k ih =>
    rw [List.foldl_append, List.filter_append]
    simp only [List.foldl_cons, List.foldl_nil]
    rw [getKey_loadKey]
    by_cases hp : (decide (k.Kid = kid ∧ k.Kty = "RSA") &&
        (parseRSAPublicKey k.N k.E).toBool) = true
    · rw [if_pos hp]
      simp only [List.filter_cons, hp, ↓reduceIte, List.filter_nil, List.getLast?_concat]
    · rw [if_neg hp, ih]
      simp only [List.filter_cons, hp, ↓reduceIte, List.filter_nil, List.append_nil,
        Bool.false_eq_true]

/-- C17: when the key-set document decodes, `loadKeycloakPublicKeys` returns no error
(unparsable entries are skipped), and afterwards the cache answers, for every key id:
the parsed key of the last document entry with that key id, `kty` `RSA` and a
parsable modulus and exponent, when there is such an entry; what it answered before
the load otherwise.  So other entries add nothing, keys the document does not
redefine stay as they were, and no cached key id is ever removed; the rest of the
state is untouched but for the recorded fetch. -/
theorem loadKeycloakPublicKeys_merge (w : World) (aenv : AuthEnv) (keys : List Jwk)
    (hc : aenv.certs = .ok keys) :
    (loadKeycloakPublicKeys w aenv).1 = .ok () ∧
    (∀ kid, getKey (loadKeycloakPublicKeys w aenv).2.publicKeys kid =
      match (keys.filter (fun k => decide (k.Kid = kid ∧ k.Kty = "RSA") &&
          (parseRSAPublicKey k.N k.E).toBool)).getLast? with
      | some k => (parseRSAPublicKey k.N k.E).toOption
      | none => getKey w.publicKeys kid) ∧
    (∀ kid key, getKey w.publicKeys kid = some key →
      (getKey (loadKeycloakPublicKeys w aenv).2.publicKeys kid).isSome = true) ∧
    (loadKeycloakPublicKeys w aenv).2
      = { w with publicKeys := (loadKeycloakPublicKeys w aenv).2.publicKeys,
                 calls := w.calls ++ [Call.fetchCerts] } := by
  have hl : loadKeycloakPublicKeys w aenv
      = (.ok (), { w with publicKeys := keys.foldl loadKey w.publicKeys,
                          calls := w.calls ++ [Call.fetchCerts] }) := by
    simp [loadKeycloakPublicKeys, hc]
  rw [hl]
  refine ⟨rfl, fun kid => getKey_foldl_loadKey w.publicKeys kid keys, ?_, rfl⟩
  intro kid key hk
  simp only
  rw [getKey_foldl_loadKey]
  cases hlast : (keys.filter (fun k => decide (k.Kid = kid ∧ k.Kty = "RSA") &&
      (parseRSAPublicKey k.N k.E).toBool)).getLast? with
  | none => simp [hk]
  | some k =>
    have hmem := List.mem_of_getLast?_eq_some hlast
    simp only [List.mem_filter, Bool.and_eq_true] at hmem
    simp only
    cases hp : parseRSAPublicKey k.N k.E with
    | error e => rw [hp] at hmem; simp [Except.toBool] at hmem
    | ok pk => rfl

/-- C17, witness: the sample document loaded over a cache that holds `k1`: `k2` now
answers the parsed key and `k1` answers what it did. -/
theorem loadKeycloakPublicKeys_merge_witness :
    (loadKeycloakPublicKeys sampleWorld reloadAuthEnv).1 = .ok () ∧
    getKey (loadKeycloakPublicKeys sampleWorld reloadAuthEnv).2.publicKeys "k2"
      = some ⟨65537, 65537⟩ ∧
    getKey (loadKeycloakPublicKeys sampleWorld reloadAuthEnv).2.publicKeys "k1"
      = some sampleKey :=
  ⟨(loadKeycloakPublicKeys_merge sampleWorld reloadAuthEnv sampleCerts rfl).1, by decide,
    by decide⟩

/-! ## The broker health flag -/

theorem step_unhealthy (r : RabbitMQService) (op : RmqOp) (h : r.isHealthy = false) :
    (r.step op).isHealthy = false := by
  cases op with
  | publish b =>
    simp only [RabbitMQService.step, RabbitMQService.PublishTicketPurchased]
    split
    · exact h
    · split
      · rfl
      · exact h
  | healthCheck => exact h
  | close => exact h

theorem run_unhealthy (ops : List RmqOp) :
    ∀ r : RabbitMQService, r.isHealthy = false → (r.run ops).isHealthy = false := by
  induction ops with
  | nil => intro r h; exact h
  | cons op rest ih =>
    intro r h
    exact ih (r.step op) (step_unhealthy r op h)

/-- C18: once `PublishTicketPurchased` has failed at the broker publish step, after
any sequence of further publishes (accepted or refused), health checks and closes
the flag is still false, `HealthCheck` returns an error and the health endpoint
answers 503; no call turns a false flag true; and a publish that fails because the
channel is nil returns the service unchanged, flag included. -/
theorem health_flag_sticky (r : RabbitMQService) :
    (∀ b, (r.PublishTicketPurchased b).1 = .error .publishFailed →
      ∀ (ops : List RmqOp) (w : World),
        ((r.PublishTicketPurchased b).2.run ops).isHealthy = false ∧
        ((r.PublishTicketPurchased b).2.run ops).HealthCheck = .error .unhealthy ∧
        (RabbitMQHealth { w with rmq := (r.PublishTicketPurchased b).2.run ops }).1.status
          = 503) ∧
    (∀ op, r.isHealthy = false → (r.step op).isHealthy = false) ∧
    (r.channel = false → ∀ b, r.PublishTicketPurchased b = (.error .channelNil, r)) := by
  refine ⟨?_, fun op h => step_unhealthy r op h, ?_⟩
  · intro b hfail ops w
    have hflag : (r.PublishTicketPurchased b).2.isHealthy = false := by
      unfold RabbitMQService.PublishTicketPurchased at hfail ⊢
      split at hfail
      · simp at hfail
      · rename_i hch
        rw [if_neg hch]
        split at hfail
        · rename_i hb
          rw [if_pos hb]
        · simp at hfail
    have hrun := run_unhealthy ops _ hflag
    refine ⟨hrun, ?_, ?_⟩
    · simp [RabbitMQService.HealthCheck, hrun]
    · simp [RabbitMQHealth, RabbitMQService.HealthCheck, hrun]
  · intro hch b
    simp [RabbitMQService.PublishTicketPurchased, hch]

/-- C18, witness: a refused publish on the connected sample broker, followed by an
accepted publish and a health check. -/
theorem health_flag_sticky_witness :
    ((((worldOf []).rmq.PublishTicketPurchased false).2.run
        [.publish true, .healthCheck]).HealthCheck = .error .unhealthy) ∧
    (worldOf []).rmq.HealthCheck = .ok () :=
  ⟨((health_flag_sticky (worldOf []).rmq).1 false rfl [.publish true, .healthCheck]
      (worldOf [])).2.1, rfl⟩

end TicketService
